import Mathlib

/-! idt9320 MTP flasher: a shallow embedding of `idt9320_mtp_flasher.c`

The program talks to the chip through `write(2)` and the `I2C_RDWR` ioctl, prints to the
console, sleeps and calls `exit`.  The embedding makes all of that explicit:

* `World` is everything the program cannot control: whether the k-th bus system call
  completes, which bytes a completed read delivers, and the indeterminate content of storage
  the program reads before writing it.
* `St` is the observable history: the number of bus system calls issued so far and the
  chronological log of bus transactions, sleeps and console messages.
* `Prog α` is a C function body: from a state it either returns a value or calls `exit`.

Machine integers are naturals with explicit `% 256` / `% 65536`; multi-byte objects are laid
out little-endian, as on the hosts the tool is built for.
-/

namespace Idt9320

/-! ## Constants (`#define`s of the source) -/

abbrev MTP_BOOTLOADER_FW_SECTION_START_ADDR : Nat := 0x0400
abbrev UNLOCK_SYS_REGISTERS : Nat := 0x5A
abbrev HS_CLOCKS : Nat := 0
abbrev AHB_CLOCKS : Nat := 9
abbrev PULSE_1US : Nat := 5
abbrev PULSE_500NS : Nat := 0x1D
abbrev HALT_PROCESSOR : Nat := 0x10
abbrev ENABLE_MTP : Nat := 1
abbrev INIT_PROGRAMMING_STRUCTURE : Nat := 0
abbrev RESET_PROCESSOR : Nat := 0x80
abbrev SEND_SIZE : Nat := 16
abbrev MTP_BOOTLOADER_SECTION_SIZE : Nat := 128
/-- The macro body is the unparenthesised text `1 << 14`; at its only use,
`st_size > 1 << 14`, the shift binds tighter than the comparison. -/
abbrev MTP_MEM_SIZE_LIMIT : Nat := 1 <<< 14
abbrev START_PROG_CYCLE : Nat := 1
abbrev START_VERIFY_CYCLE : Nat := 0x11
abbrev STATUS_CRC_BUSY : Nat := 1
abbrev STATUS_CRC_ERROR : Nat := 8
abbrev STATUS_OK : Nat := 2
abbrev STATUS_MTP_WRITE_ERR : Nat := 4
abbrev STATUS_CHECK_SUM_ERR : Nat := 8
abbrev STATUS_MTP_REPAIR_ERR : Nat := 64
abbrev MTP_VERIFY_ADDR : Nat := 0x0000
abbrev MTP_VERIFY_SIZE : Nat := 0x4680
abbrev MTP_VERIFY_CHKSUM : Nat := 0x0274
/-- The value of `ENOMEM` in `errno.h` on Linux. -/
abbrev ENOMEM : Int := 12

/-- The declarations of `mtp_bootloader_idt9320.h`, which the source includes and which is
not part of the sources at hand: the three bootloader images, the RAM address they are loaded
to and the value written to the remap register.  They are parameters of the model. -/
structure Header where
  MTP_BOOTLOADER_START_ADDR : Nat
  REMAP_RAM_TO_MTP : Nat
  MTPBootloader9320 : List Nat
  MTPVerifier9320 : List Nat
  MTPRepair9320 : List Nat

/-! ## Observable behaviour -/

/-- Console messages, one constructor per `printf` of the source, with the values printed. -/
inductive Msg where
  /-- The usage text of `help()`. -/
  | usage
  /-- From i2c_write_data and i2c_write_byte_data: "i2c message sent failed: %d". -/
  | i2c_message_sent_failed
  /-- From i2c_read_byte_data: "failed to send 2 i2c messages: %d;". -/
  | failed_to_send_2_i2c_messages
  /-- From i2c_read_data: "i2c read failed: %d;". -/
  | i2c_read_failed
  /-- From load_section: "i2c write failed". -/
  | i2c_write_failed
  /-- From verify_bootloader: "verify...". -/
  | verify
  /-- From verify_bootloader and load_bootloader: "ok". -/
  | ok
  /-- From verify_bootloader: "byte %d: expect: 0x%x, actual: 0x%x". -/
  | byte (i expect actual : Nat)
  /-- From verify_bootloader: "not ok". -/
  | not_ok
  /-- From load_bootloader: "loading bootloader". -/
  | loading_bootloader
  /-- From load_bootloader: "0x%x verification failed". -/
  | verification_failed (addr : Nat)
  /-- From load_bootloader: ".". -/
  | dot
  /-- From do_repair_cycle: "timeout trying to repair. Status: 0x%hu". -/
  | repair_timeout (status : Nat)
  /-- From do_repair_cycle: "repair ok". -/
  | repair_ok
  /-- From do_repair_cycle: "repair failed: %d, i: %d". -/
  | repair_failed (status i : Nat)
  /-- From do_repair_cycle: "unknown status: 0x%x". -/
  | repair_unknown_status (status : Nat)
  /-- From do_repair_cycle: "0x0400: 0x%x". -/
  | reg_0x0400 (value : Nat)
  /-- From do_verify_cycle: "timeout trying to verify. Status: 0x%hu". -/
  | verify_timeout (status : Nat)
  /-- From do_verify_cycle: "0x%x", the raw status word. -/
  | verify_status (status : Nat)
  /-- From do_verify_cycle: "CRC verify ok". -/
  | crc_verify_ok
  /-- From do_verify_cycle: "failed: CRC busy". -/
  | crc_busy
  /-- From do_verify_cycle: "failed: CRC error". -/
  | crc_error
  /-- From do_verify_cycle: "unknown status: 0x%x". -/
  | verify_unknown_status (status : Nat)
  /-- From do_prog_cycle: "timeout trying to flash section. Status: 0x%hu". -/
  | prog_timeout (status : Nat)
  /-- From do_prog_cycle: "0x%hx ok". -/
  | section_ok (start_addr : Nat)
  /-- From do_prog_cycle: "0x%hx mtp write error". -/
  | mtp_write_error (start_addr : Nat)
  /-- From do_prog_cycle: "0x%hx checksum error". -/
  | checksum_error (start_addr : Nat)
  /-- From do_prog_cycle: "0x%hx unknown status: 0x%x". -/
  | prog_unknown_status (start_addr status : Nat)
  /-- From do_prog_cycle: "0x0401: 0x%x". -/
  | reg_0x0401 (value : Nat)
  /-- From the four procedures: "cpu successfully reset". -/
  | cpu_successfully_reset
  /-- From mtp_programming_procedure: "loading...". -/
  | loading
  /-- From mtp_verify_procedure: "verifying...". -/
  | verifying
  /-- From mtp_repair_procedure: "repairing...". -/
  | repairing
  /-- From the four procedures: "you should reset chip power". -/
  | reset_chip_power
  /-- From test_bootloader: "bootloader successfully started!". -/
  | bootloader_started
  /-- From test_bootloader: "bootloader fail to start". -/
  | bootloader_fail_to_start
  /-- From main: "Failed to open i2c device". -/
  | failed_to_open_i2c_device
  /-- From main: "Failed to set i2c slave address". -/
  | failed_to_set_slave_address
  /-- From main: "failed to find firmware file at: %s". -/
  | failed_to_find_firmware
  deriving DecidableEq, Repr

/-- One observable step of a run.  A bus transaction is logged when the system call is
issued, whether or not it completes. -/
inductive Event where
  /-- A `write(2)` of the message `[addr >> 8, addr & 0xff] ++ data`. -/
  | write (addr : Nat) (data : List Nat)
  /-- An `I2C_RDWR` ioctl: the two address bytes written, then `len` bytes read. -/
  | read (addr len : Nat)
  /-- A call `msleep(msec)`. -/
  | sleep (msec : Nat)
  /-- A console message. -/
  | print (m : Msg)
  deriving DecidableEq, Repr

/-- What the program cannot control. -/
structure World where
  /-- Whether the k-th bus system call of the run transfers everything it was asked to
  (`write` returns the message length, the ioctl returns 2). -/
  ok : Nat → Bool
  /-- The byte at offset j delivered by the k-th bus system call when it is a completed read
  (taken modulo 256). -/
  rd : Nat → Nat → Nat
  /-- The indeterminate bytes of the `malloc`ed section descriptor's `data_buf`. -/
  heap : Nat → Nat
  /-- The indeterminate bytes of automatic buffers that are declared without initialiser
  (`rbuf`, `rdata`, the `status` of `test_bootloader`). -/
  stack : Nat → Nat
  /-- The indeterminate value `buf_sum` holds when `load_fw` is entered: it is declared
  without initialiser. -/
  buf_sum : Nat

/-- The history of a run. -/
structure St where
  /-- Number of bus system calls issued so far. -/
  tick : Nat
  /-- Everything observable so far, oldest first. -/
  log : List Event
  deriving DecidableEq, Repr

/-- The result of running a C function: it returned, or it called `exit`. -/
inductive Out (α : Type) where
  | ret (a : α) (s : St)
  | exit (code : Int) (s : St)
  deriving DecidableEq, Repr

/-- A C function body. -/
def Prog (α : Type) : Type := St → Out α

/-- Sequencing of two C statements: a call of `exit` in the first skips the second. -/
def Prog.bind {α β : Type} (m : Prog α) (f : α → Prog β) : Prog β := fun s =>
  match m s with
  | .ret a s1 => f a s1
  | .exit c s1 => .exit c s1

instance : Monad Prog where
  pure a := fun s => .ret a s
  bind := Prog.bind

/-- The call `exit(code)`. -/
def exit {α : Type} (code : Int) : Prog α := fun s => .exit code s

/-- A `printf`. -/
def print (m : Msg) : Prog Unit := fun s => .ret () { s with log := s.log ++ [.print m] }

/-- The function `msleep`: it sleeps for `msec` milliseconds (all calls pass a non-negative
constant, so the `EINVAL` branch is not taken). -/
def msleep (msec : Nat) : Prog Unit := fun s =>
  .ret () { s with log := s.log ++ [.sleep msec] }

/-- One bus system call: it is logged, the call counter advances, and the result says whether
the call completed. -/
def syscall (w : World) (e : Event) : Prog Bool := fun s =>
  .ret (w.ok s.tick) { tick := s.tick + 1, log := s.log ++ [e] }

/-- The indeterminate content of an automatic buffer of `size` bytes. -/
def World.stack_bytes (w : World) (size : Nat) : List Nat :=
  (List.range size).map fun j => w.stack j % 256

/-- The indeterminate content of the payload buffer of a freshly allocated descriptor. -/
def World.heap_bytes (w : World) : List Nat :=
  (List.range 128).map fun j => w.heap j % 256

/-- The bytes a completed read at call number `k` delivers into a buffer of `size` bytes. -/
def World.bytes (w : World) (k size : Nat) : List Nat :=
  (List.range size).map fun j => w.rd k j % 256

/-! ## Transport wrappers -/

/-- The function `i2c_write_data`; `data` is the `size` bytes at the pointer passed. -/
def i2c_write_data (w : World) (addr : Nat) (data : List Nat) : Prog Unit := do
  let sent ← syscall w (.write (addr % 65536) data)
  if !sent then
    print .i2c_message_sent_failed
    exit 1

/-- The function `i2c_write_byte_data_safe`: the result is `write(file, buf, 3) != 3`. -/
def i2c_write_byte_data_safe (w : World) (addr : Nat) (data : Nat) : Prog Nat := do
  let sent ← syscall w (.write (addr % 65536) [data % 256])
  pure (if sent then 0 else 1)

/-- The function `i2c_write_byte_data`. -/
def i2c_write_byte_data (w : World) (addr : Nat) (data : Nat) : Prog Unit := do
  let sent ← syscall w (.write (addr % 65536) [data % 256])
  if !sent then
    print .i2c_message_sent_failed
    exit 1

/-- The function `i2c_read_byte_data`; the result is the byte stored through `data`. -/
def i2c_read_byte_data (w : World) (addr : Nat) : Prog Nat := fun s =>
  (do
    let sent ← syscall w (.read (addr % 65536) 1)
    if !sent then
      print .failed_to_send_2_i2c_messages
      exit 1
    pure (w.rd s.tick 0 % 256)) s

/-- The function `i2c_read_data`; `data` is the content of the destination buffer before the
call and the result is its content after it: a failed call is reported on the console and
leaves the buffer as it was, and the function returns all the same. -/
def i2c_read_data (w : World) (addr : Nat) (data : List Nat) (size : Nat) :
    Prog (List Nat) := fun s =>
  (do
    let sent ← syscall w (.read (addr % 65536) size)
    if !sent then
      print .i2c_read_failed
      pure data
    else
      pure (w.bytes s.tick size ++ data.drop size)) s

/-! ## Bootloader loader -/

/-- The function `verify_bootloader`; `size` is the length of `bootloader`
(`sizeof` of the image at every call). -/
def verify_bootloader (w : World) (addr : Nat) (bootloader : List Nat) : Prog Unit := do
  let size := bootloader.length
  let rbuf0 := w.stack_bytes size
  print .verify
  let rbuf ← i2c_read_data w addr rbuf0 size
  if rbuf = bootloader then
    print .ok
  else
    for i in List.range size do
      if bootloader.getD i 0 ≠ rbuf.getD i 0 then
        print (.byte i (bootloader.getD i 0 &&& 0xFF) (rbuf.getD i 0 &&& 0xff))
    print .not_ok
    exit 1

/-- The `while (size > 0)` loop of `load_bootloader`.  The first argument bounds the number
of iterations the model follows (the caller passes `size`, and every iteration of a run
removes at least one byte); the other arguments are the C variables `size`, `sendsz`, `i`,
`addr` and the buffer `rdata`. -/
def load_bootloader_loop (w : World) (bootloader : List Nat) :
    Nat → Nat → Nat → Nat → Nat → List Nat → Prog Unit
  | 0, _, _, _, _, _ => pure ()
  | fuel + 1, size, sendsz, i, addr, rdata =>
    if size > 0 then do
      let sendsz := if size < sendsz then size else sendsz
      let data := (bootloader.drop (i * SEND_SIZE)).take sendsz
      i2c_write_data w addr data
      let rdata ← i2c_read_data w addr rdata sendsz
      let size := size - sendsz
      let addr := (addr + sendsz) % 65536
      if rdata.take sendsz ≠ data then
        print (.verification_failed addr)
      else
        print .dot
      load_bootloader_loop w bootloader fuel size sendsz (i + 1) addr rdata
    else
      pure ()

/-- The function `load_bootloader`; `size` is the length of `bootloader`. -/
def load_bootloader (w : World) (addr : Nat) (bootloader : List Nat) : Prog Unit := do
  let size := bootloader.length
  let sendsz := SEND_SIZE
  let rdata := w.stack_bytes sendsz
  print .loading_bootloader
  load_bootloader_loop w bootloader size size sendsz 0 (addr % 65536) rdata
  print .ok

/-! ## Cycle drivers -/

/-- The polling loop of `do_repair_cycle`, of the same shape as the one of `do_prog_cycle`;
the arguments are the C variables `i` and `status`, the result is their value when the loop
is left. -/
def repair_poll (w : World) (section_addr : Nat) : Nat → Nat → Prog (Nat × Nat)
  | i, status => fun s =>
    if status &&& START_PROG_CYCLE ≠ 0 then
      match i2c_read_byte_data w section_addr s with
      | .exit c s1 => .exit c s1
      | .ret status s1 =>
        match msleep 20 s1 with
        | .exit c s2 => .exit c s2
        | .ret _ s2 =>
          match i with
          | 0 => (do print (.repair_timeout status); exit 1) s2
          | i + 1 => repair_poll w section_addr i status s2
    else
      .ret (i, status) s

/-- The function `do_repair_cycle`. -/
def do_repair_cycle (w : World) (section_addr : Nat) : Prog Unit := do
  i2c_write_byte_data w section_addr START_PROG_CYCLE
  let (i, status) ← repair_poll w section_addr 1000 START_PROG_CYCLE
  if status = STATUS_OK then
    print .repair_ok
  else if status = STATUS_MTP_REPAIR_ERR then
    print (.repair_failed status i)
    exit 1
  else
    print (.repair_unknown_status (status &&& 0xff))
    let status ← i2c_read_byte_data w 0x0400
    print (.reg_0x0400 (status &&& 0xff))
    exit 1

/-- The polling loop of `do_verify_cycle`; `status` is the 16-bit status word, which the read
overwrites through a byte pointer: first byte read into the low byte, second into the
high byte. -/
def verify_poll (w : World) (section_addr : Nat) : Nat → Nat → Prog Nat
  | i, status => fun s =>
    if status &&& STATUS_CRC_BUSY ≠ 0 then
      match i2c_read_data w section_addr [status % 256, status / 256 % 256] 2 s with
      | .exit c s1 => .exit c s1
      | .ret buf s1 =>
        let status := buf.getD 0 0 + 256 * buf.getD 1 0
        match msleep 20 s1 with
        | .exit c s2 => .exit c s2
        | .ret _ s2 =>
          match i with
          | 0 => (do print (.verify_timeout status); exit 1) s2
          | i + 1 => verify_poll w section_addr i status s2
    else
      .ret status s

/-- The function `do_verify_cycle`. -/
def do_verify_cycle (w : World) (section_addr : Nat) : Prog Unit := do
  i2c_write_byte_data w section_addr START_VERIFY_CYCLE
  let status ← verify_poll w section_addr 1000 START_VERIFY_CYCLE
  print (.verify_status status)
  if status >>> 8 = STATUS_OK then
    print .crc_verify_ok
  else if status >>> 8 = STATUS_CRC_BUSY then
    print .crc_busy
    exit 1
  else if status >>> 8 = STATUS_CRC_ERROR then
    print .crc_error
    exit 1
  else
    print (.verify_unknown_status status)
    exit 1

/-- The polling loop of `do_prog_cycle`,
`while (status & START_PROG_CYCLE) { read status; msleep(20); if (!i--) { timeout } }`.
The arguments are the C variables `i` and `status`, the result is the status with which the
loop is left.  The test `!i--` is the match on `i`: at 0 the timeout is reported, otherwise
the loop goes on with `i - 1`; it comes after the read and does not look at the status. -/
def prog_poll (w : World) (section_addr : Nat) : Nat → Nat → Prog Nat
  | i, status => fun s =>
    if status &&& START_PROG_CYCLE ≠ 0 then
      match i2c_read_byte_data w section_addr s with
      | .exit c s1 => .exit c s1
      | .ret status s1 =>
        match msleep 20 s1 with
        | .exit c s2 => .exit c s2
        | .ret _ s2 =>
          match i with
          | 0 => (do print (.prog_timeout status); exit 1) s2
          | i + 1 => prog_poll w section_addr i status s2
    else
      .ret status s

/-- The function `do_prog_cycle`. -/
def do_prog_cycle (w : World) (section_addr start_addr : Nat) : Prog Unit := do
  i2c_write_byte_data w section_addr START_PROG_CYCLE
  let status ← prog_poll w section_addr 250 START_PROG_CYCLE
  if status = STATUS_OK then
    print (.section_ok start_addr)
  else if status = STATUS_MTP_WRITE_ERR then
    print (.mtp_write_error start_addr)
    exit 1
  else if status = STATUS_CHECK_SUM_ERR then
    print (.checksum_error start_addr)
    exit 1
  else
    print (.prog_unknown_status start_addr (status &&& 0xff))
    let status ← i2c_read_byte_data w 0x0401
    print (.reg_0x0401 (status &&& 0xff))
    exit 1

/-! ## Section transfer -/

/-- The type `struct downloader_section`: four 16-bit fields and the 128-byte payload
buffer. -/
structure downloader_section where
  status : Nat
  start_addr : Nat
  code_length : Nat
  data_chk_sum : Nat
  data_buf : List Nat
  deriving DecidableEq, Repr

/-- The two bytes of a 16-bit object in memory. -/
def le16 (v : Nat) : List Nat := [v % 256, v / 256 % 256]

/-- The 136 bytes of a section descriptor in memory, which `load_section` copies into the
message after the two address bytes. -/
def downloader_section.bytes (sec : downloader_section) : List Nat :=
  le16 sec.status ++ le16 sec.start_addr ++ le16 sec.code_length ++ le16 sec.data_chk_sum
    ++ sec.data_buf

/-- The function `load_section`: one `write` of the two address bytes and the descriptor. -/
def load_section (w : World) (section_addr : Nat) (sec : downloader_section) :
    Prog Unit := do
  let sent ← syscall w (.write (section_addr % 65536) sec.bytes)
  if !sent then
    print .i2c_write_failed
    exit 1

/-- The `while` loop of `load_fw`.  The arguments are the C variables `i`, `fw_addr`,
`buf_sum`, the descriptor `*section` and the part of the firmware file that has not been read
yet; `read` on the file delivers the next `MTP_BOOTLOADER_SECTION_SIZE` bytes, or what is
left of them, into `section->data_buf`. -/
def load_fw_loop (w : World) (i fw_addr buf_sum : Nat) (sec : downloader_section)
    (fw : List Nat) : Prog Unit := fun s =>
  let nbytes := min MTP_BOOTLOADER_SECTION_SIZE fw.length
  if nbytes > 0 ∧ i * MTP_BOOTLOADER_SECTION_SIZE < 1 <<< 14 then
    let data_buf := fw.take nbytes ++ sec.data_buf.drop nbytes
    let buf_sum := (data_buf.take nbytes).foldl (fun sum b => (sum + b) % 65536) buf_sum
    let sec : downloader_section :=
      { status := 0
        start_addr := fw_addr
        code_length := nbytes
        data_chk_sum := (fw_addr + nbytes + buf_sum) % 65536
        data_buf := data_buf }
    match load_section w MTP_BOOTLOADER_FW_SECTION_START_ADDR sec s with
    | .exit c s1 => .exit c s1
    | .ret _ s1 =>
      match do_prog_cycle w MTP_BOOTLOADER_FW_SECTION_START_ADDR sec.start_addr s1 with
      | .exit c s2 => .exit c s2
      | .ret _ s2 =>
        load_fw_loop w (i + 1) ((fw_addr + MTP_BOOTLOADER_SECTION_SIZE) % 65536) 0 sec
          (fw.drop nbytes) s2
  else
    .ret () s
termination_by fw.length
decreasing_by
  simp only [List.length_drop]
  omega

/-- The function `load_fw`; `fw` is the content of the firmware file. -/
def load_fw (w : World) (fw : List Nat) : Prog Unit :=
  let sec : downloader_section :=
    { status := 0, start_addr := 0, code_length := 0, data_chk_sum := 0
      data_buf := w.heap_bytes }
  load_fw_loop w 0 0 (w.buf_sum % 65536) sec fw

/-! ## Orchestration -/

/-- The function `prepare_system`. -/
def prepare_system (w : World) : Prog Unit := do
  i2c_write_byte_data w 0x3000 UNLOCK_SYS_REGISTERS
  i2c_write_byte_data w 0x3004 HS_CLOCKS
  i2c_write_byte_data w 0x3008 AHB_CLOCKS
  i2c_write_byte_data w 0x300C PULSE_1US
  i2c_write_byte_data w 0x300D PULSE_500NS
  i2c_write_byte_data w 0x3040 (HALT_PROCESSOR ||| ENABLE_MTP)
  msleep 10
  i2c_write_byte_data w 0x3040 HALT_PROCESSOR
  msleep 10

/-- The statements every procedure runs between the bootloader verification and its own
work are written out in each procedure, as in the source. -/
def mtp_programming_procedure (w : World) (h : Header) (fw : List Nat) : Prog Unit := do
  prepare_system w
  load_bootloader w h.MTP_BOOTLOADER_START_ADDR h.MTPBootloader9320
  verify_bootloader w h.MTP_BOOTLOADER_START_ADDR h.MTPBootloader9320
  i2c_write_byte_data w MTP_BOOTLOADER_FW_SECTION_START_ADDR INIT_PROGRAMMING_STRUCTURE
  i2c_write_byte_data w 0x3048 h.REMAP_RAM_TO_MTP
  let ret ← i2c_write_byte_data_safe w 0x3040 RESET_PROCESSOR
  if ret ≠ 0 then
    print .cpu_successfully_reset
  msleep 100
  print .loading
  load_fw w fw
  print .reset_chip_power

/-- The function `mtp_verify_procedure`. -/
def mtp_verify_procedure (w : World) (h : Header) : Prog Unit := do
  let sec : downloader_section :=
    { status := 0, start_addr := 0, code_length := MTP_VERIFY_SIZE
      data_chk_sum := MTP_VERIFY_CHKSUM
      data_buf := w.heap_bytes }
  prepare_system w
  load_bootloader w h.MTP_BOOTLOADER_START_ADDR h.MTPVerifier9320
  verify_bootloader w h.MTP_BOOTLOADER_START_ADDR h.MTPVerifier9320
  i2c_write_byte_data w MTP_BOOTLOADER_FW_SECTION_START_ADDR INIT_PROGRAMMING_STRUCTURE
  i2c_write_byte_data w 0x3048 h.REMAP_RAM_TO_MTP
  let ret ← i2c_write_byte_data_safe w 0x3040 RESET_PROCESSOR
  if ret ≠ 0 then
    print .cpu_successfully_reset
  msleep 100
  print .verifying
  load_section w MTP_BOOTLOADER_FW_SECTION_START_ADDR sec
  do_verify_cycle w MTP_BOOTLOADER_FW_SECTION_START_ADDR
  print .reset_chip_power

/-- The function `mtp_repair_procedure`; the descriptor it allocates and fills is never
sent. -/
def mtp_repair_procedure (w : World) (h : Header) : Prog Unit := do
  prepare_system w
  load_bootloader w h.MTP_BOOTLOADER_START_ADDR h.MTPRepair9320
  verify_bootloader w h.MTP_BOOTLOADER_START_ADDR h.MTPRepair9320
  i2c_write_byte_data w MTP_BOOTLOADER_FW_SECTION_START_ADDR INIT_PROGRAMMING_STRUCTURE
  i2c_write_byte_data w 0x3048 h.REMAP_RAM_TO_MTP
  let ret ← i2c_write_byte_data_safe w 0x3040 RESET_PROCESSOR
  if ret ≠ 0 then
    print .cpu_successfully_reset
  msleep 100
  print .repairing
  do_repair_cycle w MTP_BOOTLOADER_FW_SECTION_START_ADDR
  print .reset_chip_power

/-- The function `test_bootloader`. -/
def test_bootloader (w : World) (h : Header) : Prog Unit := do
  let val := 0xDEAD
  prepare_system w
  load_bootloader w h.MTP_BOOTLOADER_START_ADDR h.MTPBootloader9320
  verify_bootloader w h.MTP_BOOTLOADER_START_ADDR h.MTPBootloader9320
  i2c_write_data w MTP_BOOTLOADER_FW_SECTION_START_ADDR (le16 val)
  i2c_write_byte_data w 0x3048 h.REMAP_RAM_TO_MTP
  let ret ← i2c_write_byte_data_safe w 0x3040 RESET_PROCESSOR
  if ret ≠ 0 then
    print .cpu_successfully_reset
  msleep 100
  let buf ← i2c_read_data w MTP_BOOTLOADER_FW_SECTION_START_ADDR
    [w.stack 0 % 256, w.stack 1 % 256] 2
  let status := buf.getD 0 0 + 256 * buf.getD 1 0
  if status ≠ val then
    print .bootloader_started
  else
    print .bootloader_fail_to_start
  print .reset_chip_power

/-- What `main` finds on its command line and in the file system. -/
structure Invocation where
  /-- The argument count. -/
  argc : Nat
  /-- The second argument, a null pointer when it is absent. -/
  action : Option String
  /-- The result of `open` on the bus device node. -/
  i2c_fd : Int
  /-- The result of the `I2C_SLAVE` ioctl. -/
  set_slave : Int
  /-- The third argument, a null pointer when it is absent. -/
  filepath : Option String
  /-- The content of the file at `filepath`, or nothing when `open` fails on it; `fstat`
  reports its length as `st_size`. -/
  fw : Option (List Nat)

/-- The function `main`. -/
def main (w : World) (h : Header) (inv : Invocation) : Prog Unit := do
  if inv.argc < 2 then
    print .usage
    exit 1
  if inv.i2c_fd < 0 then
    print .failed_to_open_i2c_device
    exit inv.i2c_fd
  if inv.set_slave < 0 then
    print .failed_to_set_slave_address
    exit 1
  match inv.action with
  | none =>
    print .usage
    exit 1
  | some action =>
    if action = "test" then
      test_bootloader w h
    if action = "flash" then
      match inv.filepath with
      | none =>
        print .usage
        exit 1
      | some _ =>
        match inv.fw with
        | none =>
          print .failed_to_find_firmware
          exit 1
        | some fw =>
          let st_size := fw.length
          if st_size > MTP_MEM_SIZE_LIMIT then
            exit ENOMEM
          mtp_programming_procedure w h fw
    if action = "check" then
      mtp_verify_procedure w h
    if action = "repair" then
      mtp_repair_procedure w h

/-! ## Vocabulary of the statements -/

/-- The status byte the k-th bus system call delivers when it is a one-byte read. -/
def World.status (w : World) (k : Nat) : Nat := w.rd k 0 % 256

/-- The 16-bit status word the k-th bus system call delivers when it is a two-byte read:
first byte low, second byte high. -/
def World.word (w : World) (k : Nat) : Nat := w.rd k 0 % 256 + 256 * (w.rd k 1 % 256)

/-- The log of `n` polls of `len` bytes at `addr`: a read, then a sleep of 20 ms. -/
def polls (addr len : Nat) : Nat → List Event
  | 0 => []
  | n + 1 => [.read addr len, .sleep 20] ++ polls addr len n

/-- The state in which a run ended. -/
def Out.state {α : Type} : Out α → St
  | .ret _ s => s
  | .exit _ s => s

/-- The read transactions of a log, in order: address and length. -/
def bus_reads (log : List Event) : List (Nat × Nat) :=
  log.filterMap fun e => match e with
    | .read addr len => some (addr, len)
    | _ => none

/-- The write transactions of a log, in order: address and payload. -/
def bus_writes (log : List Event) : List (Nat × List Nat) :=
  log.filterMap fun e => match e with
    | .write addr data => some (addr, data)
    | _ => none

/-- Whether a run ended in the timeout failure of a cycle driver: the process exited and the
last thing it did was to print the driver's timeout message. -/
def Out.timed_out {α : Type} : Out α → Bool
  | .ret _ _ => false
  | .exit _ s =>
    match s.log.getLast? with
    | some (.print (.prog_timeout _)) => true
    | some (.print (.verify_timeout _)) => true
    | some (.print (.repair_timeout _)) => true
    | _ => false

/-- The bus transactions of a log, in order, without the sleeps and console messages. -/
def bus_events (log : List Event) : List Event :=
  log.filter fun e => match e with
    | .write _ _ => true
    | .read _ _ => true
    | _ => false

/-- The offsets below `n` at which the image and the read-back buffer differ, ascending. -/
def differing (image readback : List Nat) (n : Nat) : List Nat :=
  (List.range n).filter fun i => image.getD i 0 ≠ readback.getD i 0

/-- The console line that reports offset `i`: the offset, the expected and the actual byte. -/
def mismatch_line (image readback : List Nat) (i : Nat) : Event :=
  .print (.byte i (image.getD i 0 &&& 0xFF) (readback.getD i 0 &&& 0xff))

/-- The end of a run in which the bootloader verification, entered in state `s`, fails: the
read, one line per differing offset, the closing message and `exit(1)`. -/
def failed_verification (w : World) (addr : Nat) (image : List Nat) (s : St) : Out Unit :=
  .exit 1 ⟨s.tick + 1, s.log
    ++ [Event.print .verify, Event.read (addr % 65536) image.length]
    ++ (differing image (w.bytes s.tick image.length) image.length).map
        (mismatch_line image (w.bytes s.tick image.length))
    ++ [Event.print .not_ok]⟩

/-- A function body only appends to the log: whatever state it is run in, the log it ends
with extends the log it started with. -/
def Grows {α : Type} (m : Prog α) : Prop := ∀ s, s.log <+: (m s).state.log

/-- The k-th 128-byte chunk of a firmware image; the last one may be shorter. -/
def fw_chunk (fw : List Nat) (k : Nat) : List Nat := (fw.drop (128 * k)).take 128

/-- What the payload buffer of the descriptor holds when chunk `k` is read into it: the
indeterminate bytes of the fresh allocation for the first chunk, the previous chunk
afterwards. -/
def stale_buf (w : World) (fw : List Nat) (k : Nat) : List Nat :=
  if k = 0 then w.heap_bytes else fw_chunk fw (k - 1)

/-- The descriptor `load_fw` sends for chunk `k` of the image.  Its checksum adds the payload
bytes, the start address and the length; for the first chunk the value `buf_sum` held on
entry is added as well.  A short chunk leaves the tail of the buffer as it was. -/
def sent_section (w : World) (fw : List Nat) (k : Nat) : downloader_section :=
  { status := 0
    start_addr := 128 * k
    code_length := (fw_chunk fw k).length
    data_chk_sum := ((if k = 0 then w.buf_sum else 0) + (fw_chunk fw k).sum + 128 * k
      + (fw_chunk fw k).length) % 65536
    data_buf := fw_chunk fw k ++ (stale_buf w fw k).drop (fw_chunk fw k).length }

/-- A world in which every bus system call completes, reads deliver `rd`, and all
indeterminate storage holds zero. -/
def calm (rd : Nat → Nat → Nat) : World :=
  { ok := fun _ => true, rd := rd, heap := fun _ => 0, stack := fun _ => 0, buf_sum := 0 }

/-- The state at the start of a run. -/
def St.init : St := ⟨0, []⟩

/-- A header for examples: a six-byte image `0, 1, ..., 5` for every bootloader, loaded at
0x0800. -/
def Header.demo : Header :=
  { MTP_BOOTLOADER_START_ADDR := 0x0800, REMAP_RAM_TO_MTP := 0x80
    MTPBootloader9320 := List.range 6, MTPVerifier9320 := List.range 6
    MTPRepair9320 := List.range 6 }

/-- A world for examples: every read delivers the bytes `0, 1, 2, ...`, except that the
tenth bus system call of the run (number 9) delivers 9 at offset 3. -/
def World.one_bad_byte : World :=
  calm fun k j => if k = 9 ∧ j = 3 then 9 else j

/-- A command line for examples: `idt9320_mtp_flasher 0 flash mfc_fw.bin`, with the bus
device opened and a firmware file of `size` zero bytes. -/
def Invocation.flash (size : Nat) : Invocation :=
  { argc := 4, action := some "flash", i2c_fd := 3, set_slave := 0
    filepath := some "mfc_fw.bin", fw := some (List.replicate size 0) }

/-- A world for examples: the chip answers every poll with the status 0x02, and `buf_sum`
holds 1 when `load_fw` is entered. -/
def World.stale_sum : World :=
  { calm (fun _ _ => 2) with buf_sum := 1 }

/-! ## Running programs -/

@[simp] theorem pure_run {α : Type} (a : α) (s : St) : (pure a : Prog α) s = .ret a s := rfl

@[simp] theorem bind_run {α β : Type} (m : Prog α) (f : α → Prog β) (s : St) :
    (m >>= f) s = match m s with
      | .ret a s1 => f a s1
      | .exit c s1 => .exit c s1 := rfl

theorem i2c_write_data_ok (w : World) (addr : Nat) (data : List Nat) (s : St)
    (h : w.ok s.tick = true) :
    i2c_write_data w addr data s
      = .ret () ⟨s.tick + 1, s.log ++ [Event.write (addr % 65536) data]⟩ := by
  simp [i2c_write_data, syscall, h]

theorem i2c_write_byte_data_ok (w : World) (addr data : Nat) (s : St)
    (h : w.ok s.tick = true) :
    i2c_write_byte_data w addr data s
      = .ret () ⟨s.tick + 1, s.log ++ [Event.write (addr % 65536) [data % 256]]⟩ := by
  simp [i2c_write_byte_data, syscall, h]

theorem i2c_write_byte_data_safe_ok (w : World) (addr data : Nat) (s : St)
    (h : w.ok s.tick = true) :
    i2c_write_byte_data_safe w addr data s
      = .ret 0 ⟨s.tick + 1, s.log ++ [Event.write (addr % 65536) [data % 256]]⟩ := by
  simp [i2c_write_byte_data_safe, syscall, h]

theorem i2c_read_byte_data_ok (w : World) (addr : Nat) (s : St) (h : w.ok s.tick = true) :
    i2c_read_byte_data w addr s
      = .ret (w.status s.tick) ⟨s.tick + 1, s.log ++ [Event.read (addr % 65536) 1]⟩ := by
  simp [i2c_read_byte_data, syscall, h, World.status]

theorem i2c_read_data_ok (w : World) (addr : Nat) (data : List Nat) (size : Nat) (s : St)
    (h : w.ok s.tick = true) :
    i2c_read_data w addr data size s
      = .ret (w.bytes s.tick size ++ data.drop size)
          ⟨s.tick + 1, s.log ++ [Event.read (addr % 65536) size]⟩ := by
  simp [i2c_read_data, syscall, h]

theorem load_section_ok (w : World) (addr : Nat) (sec : downloader_section) (s : St)
    (h : w.ok s.tick = true) :
    load_section w addr sec s
      = .ret () ⟨s.tick + 1, s.log ++ [Event.write (addr % 65536) sec.bytes]⟩ := by
  simp [load_section, syscall, h]

/-! ## The polling loops -/

theorem prog_poll_found (w : World) (sa : Nat) (hok : ∀ n, w.ok n = true) :
    ∀ (k i status : Nat) (s : St), status &&& 1 ≠ 0 → k < i →
      (∀ j, j < k → w.status (s.tick + j) &&& 1 ≠ 0) →
      w.status (s.tick + k) &&& 1 = 0 →
      prog_poll w sa i status s
        = .ret (w.status (s.tick + k))
            ⟨s.tick + k + 1, s.log ++ polls (sa % 65536) 1 (k + 1)⟩ := by
  intro k
  induction k with
  | zero =>
    intro i status s hb hi _ hk
    obtain ⟨i, rfl⟩ : ∃ i', i = i' + 1 := ⟨i - 1, by omega⟩
    rw [prog_poll]
    simp only [START_PROG_CYCLE, hb, ne_eq, not_false_eq_true, if_true,
      i2c_read_byte_data_ok w sa s (hok _), msleep]
    rw [prog_poll]
    simp at hk
    simp [hk, polls]
  | succ k ih =>
    intro i status s hb hi hj hk
    obtain ⟨i, rfl⟩ : ∃ i', i = i' + 1 := ⟨i - 1, by omega⟩
    rw [prog_poll]
    simp only [START_PROG_CYCLE, hb, ne_eq, not_false_eq_true, if_true,
      i2c_read_byte_data_ok w sa s (hok _), msleep]
    have h0 := hj 0 (by omega)
    rw [ih i _ ⟨s.tick + 1, s.log ++ [Event.read (sa % 65536) 1] ++ [Event.sleep 20]⟩
      (by simpa using h0) (by omega)
      (fun j hjk => by
        have := hj (j + 1) (by omega)
        simpa [Nat.add_assoc, Nat.add_comm 1 j] using this)
      (by simpa [Nat.add_assoc, Nat.add_comm 1 k] using hk)]
    simp [polls, Nat.add_assoc, Nat.add_comm 1 k]

theorem prog_poll_timeout (w : World) (sa : Nat) (hok : ∀ n, w.ok n = true) :
    ∀ (i status : Nat) (s : St), status &&& 1 ≠ 0 →
      (∀ j, j < i → w.status (s.tick + j) &&& 1 ≠ 0) →
      prog_poll w sa i status s
        = .exit 1 ⟨s.tick + i + 1, s.log ++ polls (sa % 65536) 1 (i + 1)
            ++ [Event.print (.prog_timeout (w.status (s.tick + i)))]⟩ := by
  intro i
  induction i with
  | zero =>
    intro status s hb _
    rw [prog_poll]
    simp only [START_PROG_CYCLE, hb, ne_eq, not_false_eq_true, if_true,
      i2c_read_byte_data_ok w sa s (hok _), msleep]
    simp [polls, print, exit]
  | succ i ih =>
    intro status s hb hj
    rw [prog_poll]
    simp only [START_PROG_CYCLE, hb, ne_eq, not_false_eq_true, if_true,
      i2c_read_byte_data_ok w sa s (hok _), msleep]
    have h0 := hj 0 (by omega)
    rw [ih _ ⟨s.tick + 1, s.log ++ [Event.read (sa % 65536) 1] ++ [Event.sleep 20]⟩
      (by simpa using h0)
      (fun j hjk => by
        have := hj (j + 1) (by omega)
        simpa [Nat.add_assoc, Nat.add_comm 1 j] using this)]
    simp [polls, Nat.add_assoc, Nat.add_comm 1 i]

theorem repair_poll_found (w : World) (sa : Nat) (hok : ∀ n, w.ok n = true) :
    ∀ (k i status : Nat) (s : St), status &&& 1 ≠ 0 → k < i →
      (∀ j, j < k → w.status (s.tick + j) &&& 1 ≠ 0) →
      w.status (s.tick + k) &&& 1 = 0 →
      repair_poll w sa i status s
        = .ret (i - (k + 1), w.status (s.tick + k))
            ⟨s.tick + k + 1, s.log ++ polls (sa % 65536) 1 (k + 1)⟩ := by
  intro k
  induction k with
  | zero =>
    intro i status s hb hi _ hk
    obtain ⟨i, rfl⟩ : ∃ i', i = i' + 1 := ⟨i - 1, by omega⟩
    rw [repair_poll]
    simp only [START_PROG_CYCLE, hb, ne_eq, not_false_eq_true, if_true,
      i2c_read_byte_data_ok w sa s (hok _), msleep]
    rw [repair_poll]
    simp at hk
    simp [hk, polls]
  | succ k ih =>
    intro i status s hb hi hj hk
    obtain ⟨i, rfl⟩ : ∃ i', i = i' + 1 := ⟨i - 1, by omega⟩
    rw [repair_poll]
    simp only [START_PROG_CYCLE, hb, ne_eq, not_false_eq_true, if_true,
      i2c_read_byte_data_ok w sa s (hok _), msleep]
    have h0 := hj 0 (by omega)
    rw [ih i _ ⟨s.tick + 1, s.log ++ [Event.read (sa % 65536) 1] ++ [Event.sleep 20]⟩
      (by simpa using h0) (by omega)
      (fun j hjk => by
        have := hj (j + 1) (by omega)
        simpa [Nat.add_assoc, Nat.add_comm 1 j] using this)
      (by simpa [Nat.add_assoc, Nat.add_comm 1 k] using hk)]
    simp [polls, Nat.add_assoc, Nat.add_comm 1 k]

theorem repair_poll_timeout (w : World) (sa : Nat) (hok : ∀ n, w.ok n = true) :
    ∀ (i status : Nat) (s : St), status &&& 1 ≠ 0 →
      (∀ j, j < i → w.status (s.tick + j) &&& 1 ≠ 0) →
      repair_poll w sa i status s
        = .exit 1 ⟨s.tick + i + 1, s.log ++ polls (sa % 65536) 1 (i + 1)
            ++ [Event.print (.repair_timeout (w.status (s.tick + i)))]⟩ := by
  intro i
  induction i with
  | zero =>
    intro status s hb _
    rw [repair_poll]
    simp only [START_PROG_CYCLE, hb, ne_eq, not_false_eq_true, if_true,
      i2c_read_byte_data_ok w sa s (hok _), msleep]
    simp [polls, print, exit]
  | succ i ih =>
    intro status s hb hj
    rw [repair_poll]
    simp only [START_PROG_CYCLE, hb, ne_eq, not_false_eq_true, if_true,
      i2c_read_byte_data_ok w sa s (hok _), msleep]
    have h0 := hj 0 (by omega)
    rw [ih _ ⟨s.tick + 1, s.log ++ [Event.read (sa % 65536) 1] ++ [Event.sleep 20]⟩
      (by simpa using h0)
      (fun j hjk => by
        have := hj (j + 1) (by omega)
        simpa [Nat.add_assoc, Nat.add_comm 1 j] using this)]
    simp [polls, Nat.add_assoc, Nat.add_comm 1 i]

theorem word_of_bytes (w : World) (t a b : Nat) :
    (w.bytes t 2 ++ [a, b].drop 2).getD 0 0 + 256 * (w.bytes t 2 ++ [a, b].drop 2).getD 1 0
      = w.word t := by
  simp [World.bytes, World.word, List.range_succ]

theorem verify_poll_found (w : World) (sa : Nat) (hok : ∀ n, w.ok n = true) :
    ∀ (k i status : Nat) (s : St), status &&& 1 ≠ 0 → k < i →
      (∀ j, j < k → w.word (s.tick + j) &&& 1 ≠ 0) →
      w.word (s.tick + k) &&& 1 = 0 →
      verify_poll w sa i status s
        = .ret (w.word (s.tick + k))
            ⟨s.tick + k + 1, s.log ++ polls (sa % 65536) 2 (k + 1)⟩ := by
  intro k
  induction k with
  | zero =>
    intro i status s hb hi _ hk
    obtain ⟨i, rfl⟩ : ∃ i', i = i' + 1 := ⟨i - 1, by omega⟩
    rw [verify_poll]
    simp only [STATUS_CRC_BUSY, hb, ne_eq, not_false_eq_true, if_true,
      i2c_read_data_ok w sa _ 2 s (hok _), msleep, word_of_bytes]
    rw [verify_poll]
    simp at hk
    simp [hk, polls]
  | succ k ih =>
    intro i status s hb hi hj hk
    obtain ⟨i, rfl⟩ : ∃ i', i = i' + 1 := ⟨i - 1, by omega⟩
    rw [verify_poll]
    simp only [STATUS_CRC_BUSY, hb, ne_eq, not_false_eq_true, if_true,
      i2c_read_data_ok w sa _ 2 s (hok _), msleep, word_of_bytes]
    have h0 := hj 0 (by omega)
    rw [ih i _ ⟨s.tick + 1, s.log ++ [Event.read (sa % 65536) 2] ++ [Event.sleep 20]⟩
      (by simpa using h0) (by omega)
      (fun j hjk => by
        have := hj (j + 1) (by omega)
        simpa [Nat.add_assoc, Nat.add_comm 1 j] using this)
      (by simpa [Nat.add_assoc, Nat.add_comm 1 k] using hk)]
    simp [polls, Nat.add_assoc, Nat.add_comm 1 k]

theorem verify_poll_timeout (w : World) (sa : Nat) (hok : ∀ n, w.ok n = true) :
    ∀ (i status : Nat) (s : St), status &&& 1 ≠ 0 →
      (∀ j, j < i → w.word (s.tick + j) &&& 1 ≠ 0) →
      verify_poll w sa i status s
        = .exit 1 ⟨s.tick + i + 1, s.log ++ polls (sa % 65536) 2 (i + 1)
            ++ [Event.print (.verify_timeout (w.word (s.tick + i)))]⟩ := by
  intro i
  induction i with
  | zero =>
    intro status s hb _
    rw [verify_poll]
    simp only [STATUS_CRC_BUSY, hb, ne_eq, not_false_eq_true, if_true,
      i2c_read_data_ok w sa _ 2 s (hok _), msleep, word_of_bytes]
    simp [polls, print, exit]
  | succ i ih =>
    intro status s hb hj
    rw [verify_poll]
    simp only [STATUS_CRC_BUSY, hb, ne_eq, not_false_eq_true, if_true,
      i2c_read_data_ok w sa _ 2 s (hok _), msleep, word_of_bytes]
    have h0 := hj 0 (by omega)
    rw [ih _ ⟨s.tick + 1, s.log ++ [Event.read (sa % 65536) 2] ++ [Event.sleep 20]⟩
      (by simpa using h0)
      (fun j hjk => by
        have := hj (j + 1) (by omega)
        simpa [Nat.add_assoc, Nat.add_comm 1 j] using this)]
    simp [polls, Nat.add_assoc, Nat.add_comm 1 i]

/-! ## The cycle drivers -/

theorem and_0xff (x : Nat) : x % 256 &&& 255 = x % 256 := by
  have h := Nat.and_pow_two_sub_one_eq_mod (x % 256) 8
  simpa using h

theorem do_prog_cycle_found (w : World) (sa start : Nat) (s : St) (k : Nat)
    (hok : ∀ n, w.ok n = true) (hk : k < 250)
    (hbusy : ∀ j, j < k → w.status (s.tick + 1 + j) &&& 1 ≠ 0)
    (hfree : w.status (s.tick + 1 + k) &&& 1 = 0) :
    do_prog_cycle w sa start s =
      if w.status (s.tick + 1 + k) = 0x02 then
        .ret () ⟨s.tick + 1 + k + 1,
          s.log ++ [Event.write (sa % 65536) [1]] ++ polls (sa % 65536) 1 (k + 1)
            ++ [Event.print (.section_ok start)]⟩
      else if w.status (s.tick + 1 + k) = 0x04 then
        .exit 1 ⟨s.tick + 1 + k + 1,
          s.log ++ [Event.write (sa % 65536) [1]] ++ polls (sa % 65536) 1 (k + 1)
            ++ [Event.print (.mtp_write_error start)]⟩
      else if w.status (s.tick + 1 + k) = 0x08 then
        .exit 1 ⟨s.tick + 1 + k + 1,
          s.log ++ [Event.write (sa % 65536) [1]] ++ polls (sa % 65536) 1 (k + 1)
            ++ [Event.print (.checksum_error start)]⟩
      else
        .exit 1 ⟨s.tick + 1 + k + 2,
          s.log ++ [Event.write (sa % 65536) [1]] ++ polls (sa % 65536) 1 (k + 1)
            ++ [Event.print (.prog_unknown_status start (w.status (s.tick + 1 + k))),
                Event.read 0x0401 1,
                Event.print (.reg_0x0401 (w.status (s.tick + 1 + k + 1)))]⟩ := by
  have hp := prog_poll_found w sa hok k 250 START_PROG_CYCLE
    ⟨s.tick + 1, s.log ++ [Event.write (sa % 65536) [1]]⟩ (by decide) hk hbusy hfree
  simp only [do_prog_cycle, bind_run, i2c_write_byte_data_ok w sa _ s (hok _)]
  simp only [START_PROG_CYCLE, Nat.reduceMod] at hp ⊢
  rw [hp]
  simp only [STATUS_OK, STATUS_MTP_WRITE_ERR, STATUS_CHECK_SUM_ERR]
  split_ifs with h1 h2 h3
  · simp [print]
  · simp [print, exit]
  · simp [print, exit]
  · simp [print, exit, i2c_read_byte_data_ok w _ _ (hok _), World.status, and_0xff]

theorem do_prog_cycle_timeout (w : World) (sa start : Nat) (s : St)
    (hok : ∀ n, w.ok n = true)
    (hbusy : ∀ j, j < 250 → w.status (s.tick + 1 + j) &&& 1 ≠ 0) :
    do_prog_cycle w sa start s =
      .exit 1 ⟨s.tick + 1 + 250 + 1,
        s.log ++ [Event.write (sa % 65536) [1]] ++ polls (sa % 65536) 1 251
          ++ [Event.print (.prog_timeout (w.status (s.tick + 1 + 250)))]⟩ := by
  have hp := prog_poll_timeout w sa hok 250 START_PROG_CYCLE
    ⟨s.tick + 1, s.log ++ [Event.write (sa % 65536) [1]]⟩ (by decide) hbusy
  simp only [do_prog_cycle, bind_run, i2c_write_byte_data_ok w sa _ s (hok _)]
  simp only [START_PROG_CYCLE, Nat.reduceMod] at hp ⊢
  rw [hp]

theorem do_repair_cycle_found (w : World) (sa : Nat) (s : St) (k : Nat)
    (hok : ∀ n, w.ok n = true) (hk : k < 1000)
    (hbusy : ∀ j, j < k → w.status (s.tick + 1 + j) &&& 1 ≠ 0)
    (hfree : w.status (s.tick + 1 + k) &&& 1 = 0) :
    do_repair_cycle w sa s =
      if w.status (s.tick + 1 + k) = 0x02 then
        .ret () ⟨s.tick + 1 + k + 1,
          s.log ++ [Event.write (sa % 65536) [1]] ++ polls (sa % 65536) 1 (k + 1)
            ++ [Event.print .repair_ok]⟩
      else if w.status (s.tick + 1 + k) = 0x40 then
        .exit 1 ⟨s.tick + 1 + k + 1,
          s.log ++ [Event.write (sa % 65536) [1]] ++ polls (sa % 65536) 1 (k + 1)
            ++ [Event.print (.repair_failed 0x40 (1000 - (k + 1)))]⟩
      else
        .exit 1 ⟨s.tick + 1 + k + 2,
          s.log ++ [Event.write (sa % 65536) [1]] ++ polls (sa % 65536) 1 (k + 1)
            ++ [Event.print (.repair_unknown_status (w.status (s.tick + 1 + k))),
                Event.read 0x0400 1,
                Event.print (.reg_0x0400 (w.status (s.tick + 1 + k + 1)))]⟩ := by
  have hp := repair_poll_found w sa hok k 1000 START_PROG_CYCLE
    ⟨s.tick + 1, s.log ++ [Event.write (sa % 65536) [1]]⟩ (by decide) hk hbusy hfree
  simp only [do_repair_cycle, bind_run, i2c_write_byte_data_ok w sa _ s (hok _)]
  simp only [START_PROG_CYCLE, Nat.reduceMod] at hp ⊢
  rw [hp]
  simp only [STATUS_OK, STATUS_MTP_REPAIR_ERR]
  split_ifs with h1 h2
  · simp [print]
  · simp [print, exit, h2]
  · simp [print, exit, i2c_read_byte_data_ok w _ _ (hok _), World.status, and_0xff]

theorem do_repair_cycle_timeout (w : World) (sa : Nat) (s : St)
    (hok : ∀ n, w.ok n = true)
    (hbusy : ∀ j, j < 1000 → w.status (s.tick + 1 + j) &&& 1 ≠ 0) :
    do_repair_cycle w sa s =
      .exit 1 ⟨s.tick + 1 + 1000 + 1,
        s.log ++ [Event.write (sa % 65536) [1]] ++ polls (sa % 65536) 1 1001
          ++ [Event.print (.repair_timeout (w.status (s.tick + 1 + 1000)))]⟩ := by
  have hp := repair_poll_timeout w sa hok 1000 START_PROG_CYCLE
    ⟨s.tick + 1, s.log ++ [Event.write (sa % 65536) [1]]⟩ (by decide) hbusy
  simp only [do_repair_cycle, bind_run, i2c_write_byte_data_ok w sa _ s (hok _)]
  simp only [START_PROG_CYCLE, Nat.reduceMod] at hp ⊢
  rw [hp]

theorem word_and_one (w : World) (t : Nat) : w.word t &&& 1 = w.status t &&& 1 := by
  simp only [Nat.and_one_is_mod, World.word, World.status]
  omega

theorem word_shiftRight (w : World) (t : Nat) : w.word t >>> 8 = w.rd t 1 % 256 := by
  simp only [Nat.shiftRight_eq_div_pow, World.word]
  omega

theorem do_verify_cycle_found (w : World) (sa : Nat) (s : St) (k : Nat)
    (hok : ∀ n, w.ok n = true) (hk : k < 1000)
    (hbusy : ∀ j, j < k → w.status (s.tick + 1 + j) &&& 1 ≠ 0)
    (hfree : w.status (s.tick + 1 + k) &&& 1 = 0) :
    do_verify_cycle w sa s =
      if w.rd (s.tick + 1 + k) 1 % 256 = 0x02 then
        .ret () ⟨s.tick + 1 + k + 1,
          s.log ++ [Event.write (sa % 65536) [0x11]] ++ polls (sa % 65536) 2 (k + 1)
            ++ [Event.print (.verify_status (w.word (s.tick + 1 + k))),
                Event.print .crc_verify_ok]⟩
      else if w.rd (s.tick + 1 + k) 1 % 256 = 0x01 then
        .exit 1 ⟨s.tick + 1 + k + 1,
          s.log ++ [Event.write (sa % 65536) [0x11]] ++ polls (sa % 65536) 2 (k + 1)
            ++ [Event.print (.verify_status (w.word (s.tick + 1 + k))),
                Event.print .crc_busy]⟩
      else if w.rd (s.tick + 1 + k) 1 % 256 = 0x08 then
        .exit 1 ⟨s.tick + 1 + k + 1,
          s.log ++ [Event.write (sa % 65536) [0x11]] ++ polls (sa % 65536) 2 (k + 1)
            ++ [Event.print (.verify_status (w.word (s.tick + 1 + k))),
                Event.print .crc_error]⟩
      else
        .exit 1 ⟨s.tick + 1 + k + 1,
          s.log ++ [Event.write (sa % 65536) [0x11]] ++ polls (sa % 65536) 2 (k + 1)
            ++ [Event.print (.verify_status (w.word (s.tick + 1 + k))),
                Event.print (.verify_unknown_status (w.word (s.tick + 1 + k)))]⟩ := by
  have hp := verify_poll_found w sa hok k 1000 START_VERIFY_CYCLE
    ⟨s.tick + 1, s.log ++ [Event.write (sa % 65536) [0x11]]⟩ (by decide) hk
    (fun j hj => by rw [word_and_one]; exact hbusy j hj) (by rw [word_and_one]; exact hfree)
  simp only [do_verify_cycle, bind_run, i2c_write_byte_data_ok w sa _ s (hok _)]
  simp only [START_VERIFY_CYCLE, Nat.reduceMod] at hp ⊢
  rw [hp]
  simp only [STATUS_OK, STATUS_CRC_BUSY, STATUS_CRC_ERROR, word_shiftRight]
  split_ifs with h1 h2 h3
  · simp [print]
  · simp [print, exit]
  · simp [print, exit]
  · simp [print, exit]

theorem do_verify_cycle_timeout (w : World) (sa : Nat) (s : St)
    (hok : ∀ n, w.ok n = true)
    (hbusy : ∀ j, j < 1000 → w.status (s.tick + 1 + j) &&& 1 ≠ 0) :
    do_verify_cycle w sa s =
      .exit 1 ⟨s.tick + 1 + 1000 + 1,
        s.log ++ [Event.write (sa % 65536) [0x11]] ++ polls (sa % 65536) 2 1001
          ++ [Event.print (.verify_timeout (w.word (s.tick + 1 + 1000)))]⟩ := by
  have hp := verify_poll_timeout w sa hok 1000 START_VERIFY_CYCLE
    ⟨s.tick + 1, s.log ++ [Event.write (sa % 65536) [0x11]]⟩ (by decide)
    (fun j hj => by rw [word_and_one]; exact hbusy j hj)
  simp only [do_verify_cycle, bind_run, i2c_write_byte_data_ok w sa _ s (hok _)]
  simp only [START_VERIFY_CYCLE, Nat.reduceMod] at hp ⊢
  rw [hp]

/-! ## Reading logs -/

@[simp] theorem bus_reads_nil : bus_reads [] = [] := rfl

@[simp] theorem bus_reads_cons_read (addr len : Nat) (l : List Event) :
    bus_reads (Event.read addr len :: l) = (addr, len) :: bus_reads l := rfl

@[simp] theorem bus_reads_cons_write (addr : Nat) (data : List Nat) (l : List Event) :
    bus_reads (Event.write addr data :: l) = bus_reads l := rfl

@[simp] theorem bus_reads_cons_sleep (msec : Nat) (l : List Event) :
    bus_reads (Event.sleep msec :: l) = bus_reads l := rfl

@[simp] theorem bus_reads_cons_print (m : Msg) (l : List Event) :
    bus_reads (Event.print m :: l) = bus_reads l := rfl

@[simp] theorem bus_reads_append (a b : List Event) :
    bus_reads (a ++ b) = bus_reads a ++ bus_reads b := by
  simp [bus_reads, List.filterMap_append]

@[simp] theorem bus_writes_nil : bus_writes [] = [] := rfl

@[simp] theorem bus_writes_cons_read (addr len : Nat) (l : List Event) :
    bus_writes (Event.read addr len :: l) = bus_writes l := rfl

@[simp] theorem bus_writes_cons_write (addr : Nat) (data : List Nat) (l : List Event) :
    bus_writes (Event.write addr data :: l) = (addr, data) :: bus_writes l := rfl

@[simp] theorem bus_writes_cons_sleep (msec : Nat) (l : List Event) :
    bus_writes (Event.sleep msec :: l) = bus_writes l := rfl

@[simp] theorem bus_writes_cons_print (m : Msg) (l : List Event) :
    bus_writes (Event.print m :: l) = bus_writes l := rfl

@[simp] theorem bus_writes_append (a b : List Event) :
    bus_writes (a ++ b) = bus_writes a ++ bus_writes b := by
  simp [bus_writes, List.filterMap_append]

@[simp] theorem bus_reads_polls (addr len n : Nat) :
    bus_reads (polls addr len n) = List.replicate n (addr, len) := by
  induction n with
  | zero => rfl
  | succ n ih =>
    rw [polls, bus_reads_append, ih, List.replicate_succ]
    rfl

@[simp] theorem bus_writes_polls (addr len n : Nat) : bus_writes (polls addr len n) = [] := by
  induction n with
  | zero => rfl
  | succ n ih =>
    rw [polls, bus_writes_append, ih]
    rfl

theorem first_free (p : Nat → Prop) [DecidablePred p] (B : Nat)
    (h : ¬ ∀ j, j < B → p j) : ∃ k, k < B ∧ (∀ j, j < k → p j) ∧ ¬ p k := by
  have hex : ∃ k, k < B ∧ ¬ p k := by
    by_contra hne
    exact h fun j hj => by
      by_contra hp
      exact hne ⟨j, hj, hp⟩
  refine ⟨Nat.find hex, (Nat.find_spec hex).1, fun j hj => ?_, (Nat.find_spec hex).2⟩
  by_contra hp
  exact Nat.find_min hex hj ⟨lt_trans hj (Nat.find_spec hex).1, hp⟩

/-! ## Claims about the cycle drivers -/

/-- C4: when all bus calls complete and the first status byte with bit 0 clear is the one
delivered by poll number `k` (counted from 0) with `k < 250`, `do_prog_cycle` returns exactly
when that status is 0x02, exits after the write-error message when it is 0x04, after the
checksum-error message when it is 0x08, and for every other value exits after the
unknown-status message, one read of register 0x0401 and the message showing its value.  The
only write of the run is the start command (byte 1), and the only reads are the `k + 1` polls
plus, on the unknown-status path alone, the diagnostic read. -/
theorem prog_cycle_outcome (w : World) (sa start : Nat) (s : St) (k : Nat)
    (hok : ∀ n, w.ok n = true) (hk : k < 250)
    (hbusy : ∀ j, j < k → w.status (s.tick + 1 + j) &&& 1 ≠ 0)
    (hfree : w.status (s.tick + 1 + k) &&& 1 = 0) :
    (w.status (s.tick + 1 + k) = 0x02 →
      do_prog_cycle w sa start s = .ret () ⟨s.tick + 1 + k + 1,
        s.log ++ [Event.write (sa % 65536) [START_PROG_CYCLE]] ++ polls (sa % 65536) 1 (k + 1)
          ++ [Event.print (.section_ok start)]⟩) ∧
    (w.status (s.tick + 1 + k) = 0x04 →
      do_prog_cycle w sa start s = .exit 1 ⟨s.tick + 1 + k + 1,
        s.log ++ [Event.write (sa % 65536) [START_PROG_CYCLE]] ++ polls (sa % 65536) 1 (k + 1)
          ++ [Event.print (.mtp_write_error start)]⟩) ∧
    (w.status (s.tick + 1 + k) = 0x08 →
      do_prog_cycle w sa start s = .exit 1 ⟨s.tick + 1 + k + 1,
        s.log ++ [Event.write (sa % 65536) [START_PROG_CYCLE]] ++ polls (sa % 65536) 1 (k + 1)
          ++ [Event.print (.checksum_error start)]⟩) ∧
    (w.status (s.tick + 1 + k) ≠ 0x02 → w.status (s.tick + 1 + k) ≠ 0x04 →
        w.status (s.tick + 1 + k) ≠ 0x08 →
      do_prog_cycle w sa start s = .exit 1 ⟨s.tick + 1 + k + 2,
        s.log ++ [Event.write (sa % 65536) [START_PROG_CYCLE]] ++ polls (sa % 65536) 1 (k + 1)
          ++ [Event.print (.prog_unknown_status start (w.status (s.tick + 1 + k))),
              Event.read 0x0401 1,
              Event.print (.reg_0x0401 (w.status (s.tick + 1 + k + 1)))]⟩) ∧
    ((∃ s1, do_prog_cycle w sa start s = .ret () s1) ↔ w.status (s.tick + 1 + k) = 0x02) ∧
    bus_writes (do_prog_cycle w sa start s).state.log
      = bus_writes s.log ++ [(sa % 65536, [START_PROG_CYCLE])] ∧
    bus_reads (do_prog_cycle w sa start s).state.log
      = bus_reads s.log ++ List.replicate (k + 1) (sa % 65536, 1)
          ++ (if w.status (s.tick + 1 + k) = 0x02 ∨ w.status (s.tick + 1 + k) = 0x04
                ∨ w.status (s.tick + 1 + k) = 0x08 then [] else [(0x0401, 1)]) := by
  have h := do_prog_cycle_found w sa start s k hok hk hbusy hfree
  refine ⟨fun e => ?_, fun e => ?_, fun e => ?_, fun e1 e2 e3 => ?_, ?_, ?_, ?_⟩
  · rw [h, if_pos e]
  · rw [h, e]; rfl
  · rw [h, e]; rfl
  · rw [h, if_neg e1, if_neg e2, if_neg e3]
  · rw [h]
    split_ifs <;> simp_all
  · rw [h]
    split_ifs <;> simp [Out.state]
  · rw [h]
    split_ifs <;> simp_all [Out.state]

/-- Witness of C4 on a run that polls three times (busy, busy, status 6) and ends on the
unknown-status path. -/
theorem prog_cycle_outcome_witness :
    do_prog_cycle (calm fun k _ => if k < 3 then 1 else 6) 0x0400 0 St.init
      = .exit 1 ⟨5,
          [Event.write 0x0400 [1], Event.read 0x0400 1, Event.sleep 20, Event.read 0x0400 1,
            Event.sleep 20, Event.read 0x0400 1, Event.sleep 20,
            Event.print (.prog_unknown_status 0 6), Event.read 0x0401 1,
            Event.print (.reg_0x0401 6)]⟩ :=
  (prog_cycle_outcome (calm fun k _ => if k < 3 then 1 else 6) 0x0400 0 St.init 2
    (fun _ => rfl) (by decide) (by intro j hj; interval_cases j <;> decide)
    (by decide)).2.2.2.1 (by decide) (by decide) (by decide)

/-- C6: when all bus calls complete and the first status byte with bit 0 clear is the one
delivered by poll number `k` (counted from 0) with `k < 1000`, `do_repair_cycle` returns
exactly when that status is 0x02, exits after the repair-failed message when it is 0x40, and
for every other value exits after the unknown-status message, one read of register 0x0400 and
the message showing its value; that diagnostic read is made on no other path. -/
theorem repair_cycle_outcome (w : World) (sa : Nat) (s : St) (k : Nat)
    (hok : ∀ n, w.ok n = true) (hk : k < 1000)
    (hbusy : ∀ j, j < k → w.status (s.tick + 1 + j) &&& 1 ≠ 0)
    (hfree : w.status (s.tick + 1 + k) &&& 1 = 0) :
    (w.status (s.tick + 1 + k) = 0x02 →
      do_repair_cycle w sa s = .ret () ⟨s.tick + 1 + k + 1,
        s.log ++ [Event.write (sa % 65536) [START_PROG_CYCLE]] ++ polls (sa % 65536) 1 (k + 1)
          ++ [Event.print .repair_ok]⟩) ∧
    (w.status (s.tick + 1 + k) = 0x40 →
      do_repair_cycle w sa s = .exit 1 ⟨s.tick + 1 + k + 1,
        s.log ++ [Event.write (sa % 65536) [START_PROG_CYCLE]] ++ polls (sa % 65536) 1 (k + 1)
          ++ [Event.print (.repair_failed 0x40 (1000 - (k + 1)))]⟩) ∧
    (w.status (s.tick + 1 + k) ≠ 0x02 → w.status (s.tick + 1 + k) ≠ 0x40 →
      do_repair_cycle w sa s = .exit 1 ⟨s.tick + 1 + k + 2,
        s.log ++ [Event.write (sa % 65536) [START_PROG_CYCLE]] ++ polls (sa % 65536) 1 (k + 1)
          ++ [Event.print (.repair_unknown_status (w.status (s.tick + 1 + k))),
              Event.read 0x0400 1,
              Event.print (.reg_0x0400 (w.status (s.tick + 1 + k + 1)))]⟩) ∧
    ((∃ s1, do_repair_cycle w sa s = .ret () s1) ↔ w.status (s.tick + 1 + k) = 0x02) ∧
    bus_reads (do_repair_cycle w sa s).state.log
      = bus_reads s.log ++ List.replicate (k + 1) (sa % 65536, 1)
          ++ (if w.status (s.tick + 1 + k) = 0x02 ∨ w.status (s.tick + 1 + k) = 0x40
                then [] else [(0x0400, 1)]) := by
  have h := do_repair_cycle_found w sa s k hok hk hbusy hfree
  refine ⟨fun e => ?_, fun e => ?_, fun e1 e2 => ?_, ?_, ?_⟩
  · rw [h, if_pos e]
  · rw [h, e]; rfl
  · rw [h, if_neg e1, if_neg e2]
  · rw [h]
    split_ifs <;> simp_all
  · rw [h]
    split_ifs <;> simp_all [Out.state]

/-- Witness of C6 on a run whose second poll delivers the repair-error status 0x40. -/
theorem repair_cycle_outcome_witness :
    do_repair_cycle (calm fun k _ => if k < 2 then 1 else 0x40) 0x0400 St.init
      = .exit 1 ⟨3,
          [Event.write 0x0400 [1], Event.read 0x0400 1, Event.sleep 20, Event.read 0x0400 1,
            Event.sleep 20, Event.print (.repair_failed 0x40 998)]⟩ :=
  (repair_cycle_outcome (calm fun k _ => if k < 2 then 1 else 0x40) 0x0400 St.init 1
    (fun _ => rfl) (by decide) (by intro j hj; interval_cases j; decide)
    (by decide)).2.1 (by decide)

/-- C5: the status word of `do_verify_cycle` has the first byte read as its low byte and the
second as its high byte.  When all bus calls complete and the first word whose low byte has
bit 0 clear is the one delivered by poll number `k` (counted from 0) with `k < 1000`, the
driver returns exactly when the high byte of that word is 0x02, exits after the CRC-busy
message when it is 0x01, after the CRC-error message when it is 0x08 and after the
unknown-status message for every other high byte, whatever the other bits of the low byte. -/
theorem verify_cycle_outcome (w : World) (sa : Nat) (s : St) (k : Nat)
    (hok : ∀ n, w.ok n = true) (hk : k < 1000)
    (hbusy : ∀ j, j < k → w.rd (s.tick + 1 + j) 0 % 256 &&& 1 ≠ 0)
    (hfree : w.rd (s.tick + 1 + k) 0 % 256 &&& 1 = 0) :
    (w.word (s.tick + 1 + k) % 256 = w.rd (s.tick + 1 + k) 0 % 256
      ∧ w.word (s.tick + 1 + k) / 256 = w.rd (s.tick + 1 + k) 1 % 256) ∧
    (w.rd (s.tick + 1 + k) 1 % 256 = 0x02 →
      do_verify_cycle w sa s = .ret () ⟨s.tick + 1 + k + 1,
        s.log ++ [Event.write (sa % 65536) [START_VERIFY_CYCLE]]
          ++ polls (sa % 65536) 2 (k + 1)
          ++ [Event.print (.verify_status (w.word (s.tick + 1 + k))),
              Event.print .crc_verify_ok]⟩) ∧
    (w.rd (s.tick + 1 + k) 1 % 256 = 0x01 →
      do_verify_cycle w sa s = .exit 1 ⟨s.tick + 1 + k + 1,
        s.log ++ [Event.write (sa % 65536) [START_VERIFY_CYCLE]]
          ++ polls (sa % 65536) 2 (k + 1)
          ++ [Event.print (.verify_status (w.word (s.tick + 1 + k))),
              Event.print .crc_busy]⟩) ∧
    (w.rd (s.tick + 1 + k) 1 % 256 = 0x08 →
      do_verify_cycle w sa s = .exit 1 ⟨s.tick + 1 + k + 1,
        s.log ++ [Event.write (sa % 65536) [START_VERIFY_CYCLE]]
          ++ polls (sa % 65536) 2 (k + 1)
          ++ [Event.print (.verify_status (w.word (s.tick + 1 + k))),
              Event.print .crc_error]⟩) ∧
    (w.rd (s.tick + 1 + k) 1 % 256 ≠ 0x02 → w.rd (s.tick + 1 + k) 1 % 256 ≠ 0x01 →
        w.rd (s.tick + 1 + k) 1 % 256 ≠ 0x08 →
      do_verify_cycle w sa s = .exit 1 ⟨s.tick + 1 + k + 1,
        s.log ++ [Event.write (sa % 65536) [START_VERIFY_CYCLE]]
          ++ polls (sa % 65536) 2 (k + 1)
          ++ [Event.print (.verify_status (w.word (s.tick + 1 + k))),
              Event.print (.verify_unknown_status (w.word (s.tick + 1 + k)))]⟩) ∧
    ((∃ s1, do_verify_cycle w sa s = .ret () s1) ↔ w.rd (s.tick + 1 + k) 1 % 256 = 0x02) := by
  have h := do_verify_cycle_found w sa s k hok hk hbusy hfree
  refine ⟨⟨?_, ?_⟩, fun e => ?_, fun e => ?_, fun e => ?_, fun e1 e2 e3 => ?_, ?_⟩
  · simp only [World.word]; omega
  · simp only [World.word]; omega
  · rw [h, if_pos e]
  · rw [h, e]; rfl
  · rw [h, e]; rfl
  · rw [h, if_neg e1, if_neg e2, if_neg e3]
  · rw [h]
    split_ifs <;> simp_all

/-- Witness of C5 on a run whose second poll delivers the word 0x02F0: low byte 0xF0 (not
busy, other bits set), high byte 0x02. -/
theorem verify_cycle_outcome_witness :
    do_verify_cycle (calm fun k j => if k < 2 then 1 else if j = 0 then 0xF0 else 0x02)
        0x0400 St.init
      = .ret () ⟨3,
          [Event.write 0x0400 [0x11], Event.read 0x0400 2, Event.sleep 20,
            Event.read 0x0400 2, Event.sleep 20, Event.print (.verify_status 0x02F0),
            Event.print .crc_verify_ok]⟩ :=
  (verify_cycle_outcome (calm fun k j => if k < 2 then 1 else if j = 0 then 0xF0 else 0x02)
    0x0400 St.init 1 (fun _ => rfl) (by decide) (by intro j hj; interval_cases j; decide)
    (by decide)).2.1 (by decide)

/-! ## Timeouts -/

theorem getLast?_snoc3 (l : List Event) (a b c : Event) :
    (l ++ [a, b, c]).getLast? = some c := by
  rw [show l ++ [a, b, c] = (l ++ [a, b]) ++ [c] by simp]
  exact List.getLast?_concat _

theorem getLast?_snoc2 (l : List Event) (a b : Event) :
    (l ++ [a, b]).getLast? = some b := by
  rw [show l ++ [a, b] = (l ++ [a]) ++ [b] by simp]
  exact List.getLast?_concat _

theorem timed_out_snoc_prog {c : Int} (t : Nat) (l : List Event) (st : Nat) :
    (Out.exit c ⟨t, l ++ [Event.print (.prog_timeout st)]⟩ : Out Unit).timed_out = true := by
  simp only [Out.timed_out, List.getLast?_concat]

theorem timed_out_snoc_verify {c : Int} (t : Nat) (l : List Event) (st : Nat) :
    (Out.exit c ⟨t, l ++ [Event.print (.verify_timeout st)]⟩ : Out Unit).timed_out = true := by
  simp only [Out.timed_out, List.getLast?_concat]

theorem timed_out_snoc_repair {c : Int} (t : Nat) (l : List Event) (st : Nat) :
    (Out.exit c ⟨t, l ++ [Event.print (.repair_timeout st)]⟩ : Out Unit).timed_out = true := by
  simp only [Out.timed_out, List.getLast?_concat]

theorem do_prog_cycle_not_timed_out (w : World) (sa start : Nat) (s : St) (k : Nat)
    (hok : ∀ n, w.ok n = true) (hk : k < 250)
    (hbusy : ∀ j, j < k → w.status (s.tick + 1 + j) &&& 1 ≠ 0)
    (hfree : w.status (s.tick + 1 + k) &&& 1 = 0) :
    (do_prog_cycle w sa start s).timed_out = false := by
  rw [do_prog_cycle_found w sa start s k hok hk hbusy hfree]
  split_ifs <;> simp only [Out.timed_out, List.getLast?_concat, getLast?_snoc3, getLast?_snoc2]

theorem do_repair_cycle_not_timed_out (w : World) (sa : Nat) (s : St) (k : Nat)
    (hok : ∀ n, w.ok n = true) (hk : k < 1000)
    (hbusy : ∀ j, j < k → w.status (s.tick + 1 + j) &&& 1 ≠ 0)
    (hfree : w.status (s.tick + 1 + k) &&& 1 = 0) :
    (do_repair_cycle w sa s).timed_out = false := by
  rw [do_repair_cycle_found w sa s k hok hk hbusy hfree]
  split_ifs <;> simp only [Out.timed_out, List.getLast?_concat, getLast?_snoc3, getLast?_snoc2]

theorem do_verify_cycle_not_timed_out (w : World) (sa : Nat) (s : St) (k : Nat)
    (hok : ∀ n, w.ok n = true) (hk : k < 1000)
    (hbusy : ∀ j, j < k → w.status (s.tick + 1 + j) &&& 1 ≠ 0)
    (hfree : w.status (s.tick + 1 + k) &&& 1 = 0) :
    (do_verify_cycle w sa s).timed_out = false := by
  rw [do_verify_cycle_found w sa s k hok hk hbusy hfree]
  split_ifs <;> simp only [Out.timed_out, List.getLast?_concat, getLast?_snoc3, getLast?_snoc2]

theorem do_prog_cycle_timed_out_iff (w : World) (sa start : Nat) (s : St)
    (hok : ∀ n, w.ok n = true) :
    (do_prog_cycle w sa start s).timed_out = true
      ↔ ∀ j, j < 250 → w.status (s.tick + 1 + j) &&& 1 ≠ 0 := by
  constructor
  · intro h
    by_contra hne
    obtain ⟨k, hk, hb, hf⟩ := first_free (fun j => w.status (s.tick + 1 + j) &&& 1 ≠ 0) 250 hne
    have := do_prog_cycle_not_timed_out w sa start s k hok hk hb (by simpa using hf)
    rw [this] at h
    exact Bool.noConfusion h
  · intro h
    rw [do_prog_cycle_timeout w sa start s hok h]
    exact timed_out_snoc_prog _ _ _

theorem do_repair_cycle_timed_out_iff (w : World) (sa : Nat) (s : St)
    (hok : ∀ n, w.ok n = true) :
    (do_repair_cycle w sa s).timed_out = true
      ↔ ∀ j, j < 1000 → w.status (s.tick + 1 + j) &&& 1 ≠ 0 := by
  constructor
  · intro h
    by_contra hne
    obtain ⟨k, hk, hb, hf⟩ := first_free (fun j => w.status (s.tick + 1 + j) &&& 1 ≠ 0) 1000 hne
    have := do_repair_cycle_not_timed_out w sa s k hok hk hb (by simpa using hf)
    rw [this] at h
    exact Bool.noConfusion h
  · intro h
    rw [do_repair_cycle_timeout w sa s hok h]
    exact timed_out_snoc_repair _ _ _

theorem do_verify_cycle_timed_out_iff (w : World) (sa : Nat) (s : St)
    (hok : ∀ n, w.ok n = true) :
    (do_verify_cycle w sa s).timed_out = true
      ↔ ∀ j, j < 1000 → w.status (s.tick + 1 + j) &&& 1 ≠ 0 := by
  constructor
  · intro h
    by_contra hne
    obtain ⟨k, hk, hb, hf⟩ := first_free (fun j => w.status (s.tick + 1 + j) &&& 1 ≠ 0) 1000 hne
    have := do_verify_cycle_not_timed_out w sa s k hok hk hb (by simpa using hf)
    rw [this] at h
    exact Bool.noConfusion h
  · intro h
    rw [do_verify_cycle_timeout w sa s hok h]
    exact timed_out_snoc_verify _ _ _

/-- C7: with all bus calls completing, `do_verify_cycle` ends in the timeout failure exactly
when each of the first 1000 status words polled has bit 0 of its low byte set; it has then
made 1001 reads.  When the first word with that bit clear comes with poll number `k` (counted
from 0, `k < 1000`), the run does not end in the timeout failure, has made exactly `k + 1`
reads and has printed that word for classification.  In every case the run ends and its only
write is the start command 0x11. -/
theorem verify_cycle_times_out_iff (w : World) (sa : Nat) (s : St) (hok : ∀ n, w.ok n = true) :
    ((do_verify_cycle w sa s).timed_out = true
      ↔ ∀ j, j < 1000 → w.rd (s.tick + 1 + j) 0 % 256 &&& 1 ≠ 0) ∧
    ((∀ j, j < 1000 → w.rd (s.tick + 1 + j) 0 % 256 &&& 1 ≠ 0) →
      bus_reads (do_verify_cycle w sa s).state.log
        = bus_reads s.log ++ List.replicate 1001 (sa % 65536, 2)) ∧
    (∀ k, k < 1000 → (∀ j, j < k → w.rd (s.tick + 1 + j) 0 % 256 &&& 1 ≠ 0) →
      w.rd (s.tick + 1 + k) 0 % 256 &&& 1 = 0 →
      (do_verify_cycle w sa s).timed_out = false
        ∧ bus_reads (do_verify_cycle w sa s).state.log
            = bus_reads s.log ++ List.replicate (k + 1) (sa % 65536, 2)
        ∧ Event.print (.verify_status (w.word (s.tick + 1 + k)))
            ∈ (do_verify_cycle w sa s).state.log) ∧
    bus_writes (do_verify_cycle w sa s).state.log
      = bus_writes s.log ++ [(sa % 65536, [START_VERIFY_CYCLE])] := by
  refine ⟨do_verify_cycle_timed_out_iff w sa s hok, fun hb => ?_, fun k hk hb hf => ⟨?_, ?_, ?_⟩,
    ?_⟩
  · rw [do_verify_cycle_timeout w sa s hok hb]
    simp only [Out.state, bus_reads_append, bus_reads_polls, bus_reads_cons_write,
      bus_reads_cons_print, bus_reads_nil, List.append_nil]
  · exact do_verify_cycle_not_timed_out w sa s k hok hk hb hf
  · rw [do_verify_cycle_found w sa s k hok hk hb hf]
    split_ifs <;> simp [Out.state]
  · rw [do_verify_cycle_found w sa s k hok hk hb hf]
    split_ifs <;> simp [Out.state]
  · by_cases hb : ∀ j, j < 1000 → w.status (s.tick + 1 + j) &&& 1 ≠ 0
    · rw [do_verify_cycle_timeout w sa s hok hb]
      simp [Out.state]
    · obtain ⟨k, hk, hb, hf⟩ :=
        first_free (fun j => w.status (s.tick + 1 + j) &&& 1 ≠ 0) 1000 hb
      rw [do_verify_cycle_found w sa s k hok hk hb (by simpa using hf)]
      split_ifs <;> simp [Out.state]

/-- Witness of C7 on a chip that reports busy for ever: the run ends in the timeout failure
after 1001 reads. -/
theorem verify_cycle_times_out_iff_witness :
    (do_verify_cycle (calm fun _ _ => 1) 0x0400 St.init).timed_out = true
      ∧ bus_reads (do_verify_cycle (calm fun _ _ => 1) 0x0400 St.init).state.log
          = List.replicate 1001 (0x0400, 2) :=
  have h := verify_cycle_times_out_iff (calm fun _ _ => 1) 0x0400 St.init (fun _ => rfl)
  ⟨h.1.2 (fun _ _ => show 1 % 256 &&& 1 ≠ 0 by decide),
    h.2.1 (fun _ _ => show 1 % 256 &&& 1 ≠ 0 by decide)⟩

/-- C9, the claim as stated fails: the chip reports busy on the first 250 polls of a Program
cycle and the status 0x02 (not busy, success) on the 251st; the driver reads that status and
reports the timeout, printing the status 2 it has just read. -/
theorem prog_timeout_after_ready_status :
    do_prog_cycle (calm fun k _ => if k ≤ 250 then 1 else 2) 0x0400 0 St.init
        = .exit 1 ⟨252, [Event.write 0x0400 [1]] ++ polls 0x0400 1 251
            ++ [Event.print (.prog_timeout 2)]⟩
      ∧ (do_prog_cycle (calm fun k _ => if k ≤ 250 then 1 else 2) 0x0400 0 St.init).timed_out
          = true
      ∧ (calm fun k _ => if k ≤ 250 then 1 else 2).status 251 = 2
      ∧ (calm fun k _ => if k ≤ 250 then 1 else 2).status 251 &&& 1 = 0 := by
  have h := do_prog_cycle_timeout (calm fun k _ => if k ≤ 250 then 1 else 2) 0x0400 0 St.init
    (fun _ => rfl) (fun j hj => by
      have : St.init.tick + 1 + j ≤ 250 := by simp [St.init]; omega
      simp [World.status, calm, this])
  refine ⟨?_, ?_, by decide, by decide⟩
  · rw [h]; rfl
  · rw [h]; exact timed_out_snoc_prog _ _ _

/-- C9, amended: with all bus calls completing, each driver ends in the timeout failure
exactly when every status read within its budget (the first 250 polls for Program, the first
1000 for Verify and for Repair) has bit 0 set; the timeout is then reported upon one further
poll, the 251st or 1001st, whose value is printed and not examined.  So no driver reports the
timeout when a poll within its budget delivered a status with bit 0 clear. -/
theorem timeout_only_after_budget (w : World) (sa start : Nat) (s : St)
    (hok : ∀ n, w.ok n = true) :
    (((do_prog_cycle w sa start s).timed_out = true
        ↔ ∀ j, j < 250 → w.status (s.tick + 1 + j) &&& 1 ≠ 0) ∧
      ((do_prog_cycle w sa start s).timed_out = true →
        do_prog_cycle w sa start s = .exit 1 ⟨s.tick + 1 + 250 + 1,
          s.log ++ [Event.write (sa % 65536) [START_PROG_CYCLE]] ++ polls (sa % 65536) 1 251
            ++ [Event.print (.prog_timeout (w.status (s.tick + 1 + 250)))]⟩)) ∧
    (((do_verify_cycle w sa s).timed_out = true
        ↔ ∀ j, j < 1000 → w.status (s.tick + 1 + j) &&& 1 ≠ 0) ∧
      ((do_verify_cycle w sa s).timed_out = true →
        do_verify_cycle w sa s = .exit 1 ⟨s.tick + 1 + 1000 + 1,
          s.log ++ [Event.write (sa % 65536) [START_VERIFY_CYCLE]]
            ++ polls (sa % 65536) 2 1001
            ++ [Event.print (.verify_timeout (w.word (s.tick + 1 + 1000)))]⟩)) ∧
    (((do_repair_cycle w sa s).timed_out = true
        ↔ ∀ j, j < 1000 → w.status (s.tick + 1 + j) &&& 1 ≠ 0) ∧
      ((do_repair_cycle w sa s).timed_out = true →
        do_repair_cycle w sa s = .exit 1 ⟨s.tick + 1 + 1000 + 1,
          s.log ++ [Event.write (sa % 65536) [START_PROG_CYCLE]] ++ polls (sa % 65536) 1 1001
            ++ [Event.print (.repair_timeout (w.status (s.tick + 1 + 1000)))]⟩)) := by
  refine ⟨⟨do_prog_cycle_timed_out_iff w sa start s hok, fun h => ?_⟩,
    ⟨do_verify_cycle_timed_out_iff w sa s hok, fun h => ?_⟩,
    ⟨do_repair_cycle_timed_out_iff w sa s hok, fun h => ?_⟩⟩
  · exact do_prog_cycle_timeout w sa start s hok
      ((do_prog_cycle_timed_out_iff w sa start s hok).1 h)
  · exact do_verify_cycle_timeout w sa s hok ((do_verify_cycle_timed_out_iff w sa s hok).1 h)
  · exact do_repair_cycle_timeout w sa s hok ((do_repair_cycle_timed_out_iff w sa s hok).1 h)

/-- Witness of C9 as amended, on a chip that clears the busy bit with the third poll: none of
the three drivers ends in the timeout failure. -/
theorem timeout_only_after_budget_witness :
    (do_prog_cycle (calm fun k _ => if k < 3 then 1 else 2) 0x0400 0 St.init).timed_out
        = false
      ∧ (do_verify_cycle (calm fun k _ => if k < 3 then 1 else 2) 0x0400 St.init).timed_out
        = false
      ∧ (do_repair_cycle (calm fun k _ => if k < 3 then 1 else 2) 0x0400 St.init).timed_out
        = false := by
  have h := timeout_only_after_budget (calm fun k _ => if k < 3 then 1 else 2) 0x0400 0
    St.init (fun _ => rfl)
  have hfree : ¬ ∀ j, j < 250 →
      (calm fun k _ => if k < 3 then 1 else 2).status (St.init.tick + 1 + j) &&& 1 ≠ 0 :=
    fun hall => hall 2 (by decide) (by decide)
  have hfree2 : ¬ ∀ j, j < 1000 →
      (calm fun k _ => if k < 3 then 1 else 2).status (St.init.tick + 1 + j) &&& 1 ≠ 0 :=
    fun hall => hall 2 (by decide) (by decide)
  refine ⟨?_, ?_, ?_⟩
  · exact Bool.eq_false_iff.2 fun ht => hfree (h.1.1.1 ht)
  · exact Bool.eq_false_iff.2 fun ht => hfree2 (h.2.1.1.1 ht)
  · exact Bool.eq_false_iff.2 fun ht => hfree2 (h.2.2.1.1 ht)

/-! ## The bootloader loader -/

@[simp] theorem bus_events_nil : bus_events [] = [] := rfl

@[simp] theorem bus_events_cons_read (addr len : Nat) (l : List Event) :
    bus_events (Event.read addr len :: l) = Event.read addr len :: bus_events l := rfl

@[simp] theorem bus_events_cons_write (addr : Nat) (data : List Nat) (l : List Event) :
    bus_events (Event.write addr data :: l) = Event.write addr data :: bus_events l := rfl

@[simp] theorem bus_events_cons_sleep (msec : Nat) (l : List Event) :
    bus_events (Event.sleep msec :: l) = bus_events l := rfl

@[simp] theorem bus_events_cons_print (m : Msg) (l : List Event) :
    bus_events (Event.print m :: l) = bus_events l := rfl

@[simp] theorem bus_events_append (a b : List Event) :
    bus_events (a ++ b) = bus_events a ++ bus_events b := by
  simp [bus_events]

/-- A read through `i2c_read_data` never ends the run: whether or not the call completes, the
function returns, one system call later, with the read as its only bus transaction. -/
theorem i2c_read_data_returns (w : World) (addr : Nat) (data : List Nat) (size : Nat)
    (s : St) :
    ∃ buf s1, i2c_read_data w addr data size s = .ret buf s1 ∧ s1.tick = s.tick + 1
      ∧ bus_events s1.log = bus_events s.log ++ [Event.read (addr % 65536) size] := by
  cases h : w.ok s.tick
  · refine ⟨data, ⟨s.tick + 1,
      s.log ++ [Event.read (addr % 65536) size, Event.print .i2c_read_failed]⟩, ?_, rfl, ?_⟩
    · simp [i2c_read_data, syscall, h, print]
    · simp
  · refine ⟨w.bytes s.tick size ++ data.drop size,
      ⟨s.tick + 1, s.log ++ [Event.read (addr % 65536) size]⟩, ?_, rfl, ?_⟩
    · simp [i2c_read_data, syscall, h]
    · simp

theorem load_bootloader_loop_done (w : World) (img : List Nat)
    (fuel sendsz i addr : Nat) (rdata : List Nat) (s : St) :
    load_bootloader_loop w img fuel 0 sendsz i addr rdata s = .ret () s := by
  cases fuel <;> simp [load_bootloader_loop]

theorem load_bootloader_loop_run (w : World) (img : List Nat) (base : Nat) :
    ∀ (fuel size i : Nat) (rdata : List Nat) (s : St), size ≤ fuel →
      16 * i + size = img.length → (∀ k, w.ok (s.tick + 2 * k) = true) →
      ∃ s1, load_bootloader_loop w img fuel size 16 i ((base + 16 * i) % 65536) rdata s
          = .ret () s1
        ∧ s1.tick = s.tick + 2 * ((size + 15) / 16)
        ∧ bus_events s1.log = bus_events s.log
            ++ (List.range' i ((size + 15) / 16)).flatMap fun k =>
                [Event.write ((base + 16 * k) % 65536) ((img.drop (16 * k)).take 16),
                 Event.read ((base + 16 * k) % 65536) (min 16 (img.length - 16 * k))] := by
  intro fuel
  induction fuel with
  | zero =>
    intro size i rdata s hf _ _
    obtain rfl : size = 0 := by omega
    exact ⟨s, load_bootloader_loop_done .., by simp, by simp⟩
  | succ fuel ih =>
    intro size i rdata s hf hlen hok
    by_cases hz : size = 0
    · subst hz
      exact ⟨s, load_bootloader_loop_done .., by simp, by simp⟩
    · have hpos : size > 0 := Nat.pos_of_ne_zero hz
      have hw := hok 0
      simp only [Nat.mul_zero, Nat.add_zero] at hw
      rw [load_bootloader_loop]
      simp only [hpos, if_true, bind_run, i2c_write_data_ok w _ _ s hw]
      obtain ⟨buf, s2, hrd, ht2, hb2⟩ := i2c_read_data_returns w ((base + 16 * i) % 65536) rdata
        (if size < 16 then size else 16)
        ⟨s.tick + 1, s.log ++ [Event.write ((base + 16 * i) % 65536 % 65536)
          ((img.drop (i * SEND_SIZE)).take (if size < 16 then size else 16))]⟩
      rw [hrd]
      simp only [SEND_SIZE, Nat.mod_mod] at ht2 hb2 ⊢
      have key : ∀ m : Msg, ∃ s1,
          (do print m
              load_bootloader_loop w img fuel (size - if size < 16 then size else 16)
                (if size < 16 then size else 16) (i + 1)
                (((base + 16 * i) % 65536 + if size < 16 then size else 16) % 65536) buf) s2
            = Out.ret () s1
          ∧ s1.tick = s.tick + 2 * ((size + 15) / 16)
          ∧ bus_events s1.log = bus_events s.log
              ++ (List.range' i ((size + 15) / 16)).flatMap fun k =>
                  [Event.write ((base + 16 * k) % 65536) ((img.drop (16 * k)).take 16),
                   Event.read ((base + 16 * k) % 65536) (min 16 (img.length - 16 * k))] := by
        intro m
        simp only [bind_run, print]
        by_cases hlt : size < 16
        · simp only [hlt, if_true, Nat.sub_self, load_bootloader_loop_done]
          refine ⟨_, rfl, ?_, ?_⟩
          · simp only [ht2]; omega
          · have h1 : (size + 15) / 16 = 1 := by omega
            have hdl : (img.drop (i * 16)).length = size := by
              rw [List.length_drop]; omega
            have h2 : (img.drop (i * 16)).take size = (img.drop (16 * i)).take 16 := by
              rw [Nat.mul_comm 16 i, List.take_of_length_le (by omega),
                List.take_of_length_le (by omega)]
            have h3 : min 16 (img.length - 16 * i) = size := by omega
            simp [hb2, h1, h2, h3, hlt]
        · simp only [hlt, if_false]
          have ha : ((base + 16 * i) % 65536 + 16) % 65536 = (base + 16 * (i + 1)) % 65536 := by
            omega
          rw [ha]
          obtain ⟨s1, hrun, ht1, hb1⟩ := ih (size - 16) (i + 1) buf
            ⟨s2.tick, s2.log ++ [Event.print m]⟩ (by omega) (by omega)
            (fun k => by
              have := hok (k + 1)
              simp only [ht2]
              rw [← this]
              congr 1
              omega)
          refine ⟨s1, hrun, ?_, ?_⟩
          · simp only [ht1, ht2]; omega
          · have h1 : (size + 15) / 16 = (size - 16 + 15) / 16 + 1 := by omega
            have h2 : (img.drop (i * 16)).take 16 = (img.drop (16 * i)).take 16 := by
              rw [Nat.mul_comm]
            have h3 : min 16 (img.length - 16 * i) = 16 := by omega
            rw [hb1, h1, List.range'_succ]
            simp [hb2, h2, h3, hlt]
      by_cases hne : List.take (if size < 16 then size else 16) buf
          ≠ List.take (if size < 16 then size else 16) (List.drop (i * 16) img)
      · rw [if_pos hne]
        exact key _
      · rw [if_neg hne]
        exact key _

theorem bus_writes_bus_events (l : List Event) : bus_writes (bus_events l) = bus_writes l := by
  induction l with
  | nil => rfl
  | cons e l ih => cases e <;> simp [ih]

theorem bus_writes_write_read_pairs (l : List Nat) (a n : Nat → Nat) (d : Nat → List Nat) :
    bus_writes (l.flatMap fun k => [Event.write (a k) (d k), Event.read (a k) (n k)])
      = l.map fun k => (a k, d k) := by
  induction l with
  | nil => rfl
  | cons k l ih => simp [ih]

theorem chunks_flatten (c : Nat) :
    ∀ (m : Nat) (l : List Nat), l.length ≤ c * m →
      ((List.range m).flatMap fun k => (l.drop (c * k)).take c) = l := by
  intro m
  induction m with
  | zero =>
    intro l hl
    have : l = [] := List.length_eq_zero.1 (by omega)
    simp [this]
  | succ m ih =>
    intro l hl
    have hrec := ih (l.drop c) (by rw [List.length_drop]; rw [Nat.mul_succ] at hl; omega)
    rw [List.range_succ_eq_map, List.flatMap_cons, List.flatMap_map]
    simp only [Nat.mul_zero, List.drop_zero, Function.comp_def, Nat.mul_succ]
    have : (fun k => List.take c (List.drop (c * k + c) l))
        = fun k => List.take c (List.drop (c * k) (List.drop c l)) := by
      funext k
      rw [List.drop_drop, Nat.add_comm]
    rw [this, hrec, List.take_append_drop]

theorem load_bootloader_run (w : World) (addr : Nat) (img : List Nat) (s : St)
    (hok : ∀ k, w.ok (s.tick + 2 * k) = true) :
    ∃ s1, load_bootloader w addr img s = .ret () s1
      ∧ s1.tick = s.tick + 2 * ((img.length + 15) / 16)
      ∧ bus_events s1.log = bus_events s.log
          ++ (List.range ((img.length + 15) / 16)).flatMap (fun k =>
              [Event.write ((addr + 16 * k) % 65536) ((img.drop (16 * k)).take 16),
               Event.read ((addr + 16 * k) % 65536) (min 16 (img.length - 16 * k))]) := by
  obtain ⟨s1, hrun, ht, hb⟩ := load_bootloader_loop_run w img addr img.length img.length 0
    (w.stack_bytes 16) ⟨s.tick, s.log ++ [Event.print .loading_bootloader]⟩
    (Nat.le_refl _) (by omega) hok
  simp only [Nat.mul_zero, Nat.add_zero] at hrun
  refine ⟨⟨s1.tick, s1.log ++ [Event.print .ok]⟩, ?_, ht, ?_⟩
  · simp only [load_bootloader, SEND_SIZE, bind_run, print, hrun]
  · rw [bus_events_append, hb, List.range_eq_range']
    simp

/-- C10: when the chunk writes complete, `load_bootloader` returns after
`ceil(n / 16)` write transactions, whatever the read-backs deliver and whether or not they
complete.  Its bus traffic is, for `k = 0, 1, ...` in order, the write of image bytes
`[16 k, min (16 k + 16, n))` to address `(addr + 16 k) mod 65536` followed by one read of the
same address and length.  Every chunk but possibly the last has 16 bytes and the chunks
concatenated are the image. -/
theorem load_bootloader_chunks (w : World) (addr : Nat) (img : List Nat) (s : St)
    (hok : ∀ k, w.ok (s.tick + 2 * k) = true) :
    ∃ s1, load_bootloader w addr img s = .ret () s1
      ∧ s1.tick = s.tick + 2 * ((img.length + 15) / 16)
      ∧ bus_events s1.log = bus_events s.log
          ++ (List.range ((img.length + 15) / 16)).flatMap (fun k =>
              [Event.write ((addr + 16 * k) % 65536) ((img.drop (16 * k)).take 16),
               Event.read ((addr + 16 * k) % 65536) (min 16 (img.length - 16 * k))])
      ∧ bus_writes s1.log = bus_writes s.log
          ++ (List.range ((img.length + 15) / 16)).map (fun k =>
              ((addr + 16 * k) % 65536, (img.drop (16 * k)).take 16))
      ∧ (∀ k, k + 1 < (img.length + 15) / 16 → ((img.drop (16 * k)).take 16).length = 16)
      ∧ ((List.range ((img.length + 15) / 16)).flatMap fun k => (img.drop (16 * k)).take 16)
          = img := by
  obtain ⟨s1, hrun, ht, hev⟩ := load_bootloader_run w addr img s hok
  refine ⟨s1, hrun, ht, hev, ?_, ?_, ?_⟩
  · rw [← bus_writes_bus_events, hev, bus_writes_append, bus_writes_bus_events,
      bus_writes_write_read_pairs]
  · intro k hk
    rw [List.length_take, List.length_drop]
    omega
  · exact chunks_flatten 16 _ img (by omega)

/-- Witness of C10: a 20-byte image loaded at 0xFFF8 goes out as a 16-byte chunk at 0xFFF8
and a 4-byte chunk at the wrapped address 0x0008, although every read-back differs. -/
theorem load_bootloader_chunks_witness :
    ∃ s1, load_bootloader (calm fun _ _ => 0xFF) 0xFFF8 (List.range 20) St.init = .ret () s1
      ∧ bus_events s1.log
          = [Event.write 0xFFF8 (List.range 16), Event.read 0xFFF8 16,
             Event.write 0x0008 [16, 17, 18, 19], Event.read 0x0008 4] := by
  obtain ⟨s1, h1, _, h3, _⟩ :=
    load_bootloader_chunks (calm fun _ _ => 0xFF) 0xFFF8 (List.range 20) St.init (fun _ => rfl)
  exact ⟨s1, h1, by rw [h3]; decide⟩

/-! ## The bootloader verification -/

theorem report_loop_run (image rbuf : List Nat) (l : List Nat) (s : St) :
    (forIn l PUnit.unit fun i (_ : PUnit) =>
        (if image.getD i 0 ≠ rbuf.getD i 0 then do
            print (Msg.byte i (image.getD i 0 &&& 255) (rbuf.getD i 0 &&& 255))
            pure (ForInStep.yield PUnit.unit)
          else do
            pure PUnit.unit
            pure (ForInStep.yield PUnit.unit) : Prog (ForInStep PUnit))) s
      = .ret PUnit.unit ⟨s.tick, s.log
          ++ (l.filter fun i => image.getD i 0 ≠ rbuf.getD i 0).map (mismatch_line image rbuf)⟩ := by
  induction l generalizing s with
  | nil => simp
  | cons i l ih =>
    rw [List.forIn_cons]
    by_cases h : image.getD i 0 ≠ rbuf.getD i 0
    · rw [bind_run, if_pos h]
      simp only [bind_run, print, pure_run]
      rw [ih, List.filter_cons_of_pos (by simpa using h), List.map_cons]
      simp only [List.append_assoc, List.singleton_append, mismatch_line]
    · rw [bind_run, if_neg h]
      simp only [bind_run, pure_run]
      rw [ih, List.filter_cons_of_neg (by simpa using h)]

theorem bytes_drop (w : World) (t n : Nat) (l : List Nat) (h : l.length = n) :
    w.bytes t n ++ l.drop n = w.bytes t n := by
  rw [List.drop_of_length_le (by omega), List.append_nil]

theorem verify_bootloader_pass (w : World) (addr : Nat) (img : List Nat) (s : St)
    (hok : w.ok s.tick = true) (heq : w.bytes s.tick img.length = img) :
    verify_bootloader w addr img s
      = .ret () ⟨s.tick + 1, s.log
          ++ [Event.print .verify, Event.read (addr % 65536) img.length, Event.print .ok]⟩ := by
  simp only [verify_bootloader, bind_run, print]
  rw [i2c_read_data_ok w addr _ _ ⟨s.tick, s.log ++ [Event.print .verify]⟩ hok,
    bytes_drop w _ _ _ (by simp [World.stack_bytes])]
  simp [heq, print]

theorem verify_bootloader_fail (w : World) (addr : Nat) (img : List Nat) (s : St)
    (hok : w.ok s.tick = true) (hne : w.bytes s.tick img.length ≠ img) :
    verify_bootloader w addr img s
      = .exit 1 ⟨s.tick + 1, s.log
          ++ [Event.print .verify, Event.read (addr % 65536) img.length]
          ++ (differing img (w.bytes s.tick img.length) img.length).map
              (mismatch_line img (w.bytes s.tick img.length))
          ++ [Event.print .not_ok]⟩ := by
  simp only [verify_bootloader, bind_run, print]
  rw [i2c_read_data_ok w addr _ _ ⟨s.tick, s.log ++ [Event.print .verify]⟩ hok,
    bytes_drop w _ _ _ (by simp [World.stack_bytes])]
  simp only [hne, if_false, bind_run, report_loop_run, print, exit, differing]
  simp

theorem bus_events_map_mismatch_line (image rbuf : List Nat) (l : List Nat) :
    bus_events (l.map (mismatch_line image rbuf)) = [] := by
  induction l with
  | nil => rfl
  | cons i l ih => simp [mismatch_line, ih]

theorem bus_events_failed_verification (w : World) (addr : Nat) (img : List Nat) (s : St) :
    bus_events (failed_verification w addr img s).state.log
      = bus_events s.log ++ [Event.read (addr % 65536) img.length] := by
  simp [failed_verification, Out.state, bus_events_map_mismatch_line]

theorem differing_single (image rbuf : List Nat) (n j : Nat) (hj : j < n)
    (hsame : ∀ i, i < n → i ≠ j → image.getD i 0 = rbuf.getD i 0)
    (hdiff : image.getD j 0 ≠ rbuf.getD j 0) :
    differing image rbuf n = [j] := by
  have hsplit : List.range n = List.range' 0 j ++ ([j] ++ List.range' (j + 1) (n - (j + 1))) := by
    rw [List.range_eq_range']
    have h1 : [j] = List.range' j 1 := rfl
    rw [h1, List.range'_append_1]
    have h2 : List.range' 0 j ++ List.range' j (n - (j + 1) + 1)
        = List.range' 0 j ++ List.range' (0 + j) (n - (j + 1) + 1) := by rw [Nat.zero_add]
    rw [h2, List.range'_append_1]
    congr 1
    omega
  have ha : (List.range' 0 j).filter (fun i => image.getD i 0 ≠ rbuf.getD i 0) = [] := by
    rw [List.filter_eq_nil_iff]
    intro a ha
    rw [List.mem_range'_1] at ha
    simpa using hsame a (by omega) (by omega)
  have hb : (List.range' (j + 1) (n - (j + 1))).filter
      (fun i => image.getD i 0 ≠ rbuf.getD i 0) = [] := by
    rw [List.filter_eq_nil_iff]
    intro a ha
    rw [List.mem_range'_1] at ha
    simpa using hsame a (by omega) (by omega)
  rw [differing, hsplit, List.filter_append, List.filter_append, ha, hb,
    List.filter_cons_of_pos (by simpa using hdiff)]
  rfl

theorem prepare_system_ok (w : World) (s : St) (hok : ∀ n, w.ok n = true) :
    prepare_system w s = .ret () ⟨s.tick + 7, s.log
      ++ [Event.write 0x3000 [0x5A], Event.write 0x3004 [0], Event.write 0x3008 [9],
          Event.write 0x300C [5], Event.write 0x300D [0x1D], Event.write 0x3040 [0x11],
          Event.sleep 10, Event.write 0x3040 [0x10], Event.sleep 10]⟩ := by
  simp [prepare_system, i2c_write_byte_data, syscall, hok, msleep]
  decide

/-- The three statements every procedure starts with, followed by anything: when the
verification fails, the run ends there. -/
theorem bootloader_gate (w : World) (addr : Nat) (img : List Nat) (rest : Unit → Prog Unit)
    (s : St) (hok : ∀ n, w.ok n = true) :
    ∃ s2, (prepare_system w >>= fun _ => load_bootloader w addr img) s = .ret () s2
      ∧ s2.tick = s.tick + 7 + 2 * ((img.length + 15) / 16)
      ∧ (w.bytes s2.tick img.length ≠ img →
          (prepare_system w >>= fun _ => load_bootloader w addr img >>= fun _ =>
            verify_bootloader w addr img >>= rest) s = failed_verification w addr img s2) := by
  obtain ⟨s2, hrun, ht, _⟩ := load_bootloader_run w addr img
    ⟨s.tick + 7, s.log
      ++ [Event.write 0x3000 [0x5A], Event.write 0x3004 [0], Event.write 0x3008 [9],
          Event.write 0x300C [5], Event.write 0x300D [0x1D], Event.write 0x3040 [0x11],
          Event.sleep 10, Event.write 0x3040 [0x10], Event.sleep 10]⟩ (fun _ => hok _)
  refine ⟨s2, ?_, ht, fun hne => ?_⟩
  · rw [bind_run, prepare_system_ok w s hok]
    exact hrun
  · rw [bind_run, prepare_system_ok w s hok]
    simp only []
    rw [bind_run, hrun]
    simp only []
    rw [bind_run, verify_bootloader_fail w addr img s2 (hok _) hne]
    rfl

/-- C8: with the verification read completing, `verify_bootloader` returns exactly when the
read-back buffer equals the image byte for byte.  Otherwise it prints one line for each
offset at which they differ, ascending, each once, with the expected and the actual byte,
and exits; with a single differing byte that is the one offset reported.  In each of the four
procedures a failed verification ends the run with the verification read as its last bus
transaction, so no write to 0x0400, 0x3048 or 0x3040 follows it. -/
theorem verification_gate (w : World) (h : Header) (fw : List Nat) (s : St)
    (hok : ∀ n, w.ok n = true) :
    (∀ (addr : Nat) (img : List Nat) (s2 : St),
      ((∃ s3, verify_bootloader w addr img s2 = .ret () s3)
        ↔ w.bytes s2.tick img.length = img) ∧
      (w.bytes s2.tick img.length ≠ img →
        verify_bootloader w addr img s2 = .exit 1 ⟨s2.tick + 1, s2.log
          ++ [Event.print .verify, Event.read (addr % 65536) img.length]
          ++ ((List.range img.length).filter fun i =>
                img.getD i 0 ≠ (w.bytes s2.tick img.length).getD i 0).map
              (fun i => Event.print (.byte i (img.getD i 0 &&& 0xFF)
                ((w.bytes s2.tick img.length).getD i 0 &&& 0xff)))
          ++ [Event.print .not_ok]⟩) ∧
      (w.bytes s2.tick img.length ≠ img →
        verify_bootloader w addr img s2 = failed_verification w addr img s2) ∧
      bus_events (failed_verification w addr img s2).state.log
        = bus_events s2.log ++ [Event.read (addr % 65536) img.length] ∧
      (∀ j, j < img.length →
        (∀ i, i < img.length → i ≠ j →
          img.getD i 0 = (w.bytes s2.tick img.length).getD i 0) →
        img.getD j 0 ≠ (w.bytes s2.tick img.length).getD j 0 →
        differing img (w.bytes s2.tick img.length) img.length = [j])) ∧
    (∃ s2, (prepare_system w >>= fun _ =>
          load_bootloader w h.MTP_BOOTLOADER_START_ADDR h.MTPBootloader9320) s = .ret () s2
      ∧ s2.tick = s.tick + 7 + 2 * ((h.MTPBootloader9320.length + 15) / 16)
      ∧ (w.bytes s2.tick h.MTPBootloader9320.length ≠ h.MTPBootloader9320 →
          mtp_programming_procedure w h fw s
            = failed_verification w h.MTP_BOOTLOADER_START_ADDR h.MTPBootloader9320 s2
          ∧ test_bootloader w h s
            = failed_verification w h.MTP_BOOTLOADER_START_ADDR h.MTPBootloader9320 s2)) ∧
    (∃ s2, (prepare_system w >>= fun _ =>
          load_bootloader w h.MTP_BOOTLOADER_START_ADDR h.MTPVerifier9320) s = .ret () s2
      ∧ s2.tick = s.tick + 7 + 2 * ((h.MTPVerifier9320.length + 15) / 16)
      ∧ (w.bytes s2.tick h.MTPVerifier9320.length ≠ h.MTPVerifier9320 →
          mtp_verify_procedure w h s
            = failed_verification w h.MTP_BOOTLOADER_START_ADDR h.MTPVerifier9320 s2)) ∧
    (∃ s2, (prepare_system w >>= fun _ =>
          load_bootloader w h.MTP_BOOTLOADER_START_ADDR h.MTPRepair9320) s = .ret () s2
      ∧ s2.tick = s.tick + 7 + 2 * ((h.MTPRepair9320.length + 15) / 16)
      ∧ (w.bytes s2.tick h.MTPRepair9320.length ≠ h.MTPRepair9320 →
          mtp_repair_procedure w h s
            = failed_verification w h.MTP_BOOTLOADER_START_ADDR h.MTPRepair9320 s2)) := by
  refine ⟨fun addr img s2 => ⟨⟨?_, ?_⟩, ?_, ?_, ?_, ?_⟩, ?_, ?_, ?_⟩
  · rintro ⟨s3, h3⟩
    by_contra hne
    rw [verify_bootloader_fail w addr img s2 (hok _) hne] at h3
    exact Out.noConfusion h3
  · intro heq
    exact ⟨_, verify_bootloader_pass w addr img s2 (hok _) heq⟩
  · intro hne
    exact verify_bootloader_fail w addr img s2 (hok _) hne
  · intro hne
    exact verify_bootloader_fail w addr img s2 (hok _) hne
  · exact bus_events_failed_verification w addr img s2
  · intro j hj hsame hdiff
    exact differing_single img _ img.length j hj hsame hdiff
  · obtain ⟨s2, hrun, ht, _⟩ := bootloader_gate w h.MTP_BOOTLOADER_START_ADDR
      h.MTPBootloader9320 (fun _ => pure ()) s hok
    refine ⟨s2, hrun, ht, fun hne => ⟨?_, ?_⟩⟩
    · exact (bootloader_gate w h.MTP_BOOTLOADER_START_ADDR h.MTPBootloader9320 _ s hok).elim
        fun s2' hs2 => by
          obtain ⟨hrun', _, hfail⟩ := hs2
          obtain rfl : s2' = s2 := by
            have := hrun'.symm.trans hrun
            exact (Out.ret.inj this).2
          exact hfail hne
    · exact (bootloader_gate w h.MTP_BOOTLOADER_START_ADDR h.MTPBootloader9320 _ s hok).elim
        fun s2' hs2 => by
          obtain ⟨hrun', _, hfail⟩ := hs2
          obtain rfl : s2' = s2 := by
            have := hrun'.symm.trans hrun
            exact (Out.ret.inj this).2
          exact hfail hne
  · obtain ⟨s2, hrun, ht, hfail⟩ := bootloader_gate w h.MTP_BOOTLOADER_START_ADDR
      h.MTPVerifier9320 _ s hok
    exact ⟨s2, hrun, ht, fun hne => hfail hne⟩
  · obtain ⟨s2, hrun, ht, hfail⟩ := bootloader_gate w h.MTP_BOOTLOADER_START_ADDR
      h.MTPRepair9320 _ s hok
    exact ⟨s2, hrun, ht, fun hne => hfail hne⟩

/-- Witness of C8: the read-back of the six-byte image differs at offset 3 alone (9 instead
of 3); the verification reports that offset and exits, and so does the Flash procedure, whose
verification read is its tenth bus system call. -/
theorem verification_gate_witness :
    verify_bootloader World.one_bad_byte 0x0800 (List.range 6) ⟨9, []⟩
        = .exit 1 ⟨10, [Event.print .verify, Event.read 0x0800 6, Event.print (.byte 3 3 9),
            Event.print .not_ok]⟩
      ∧ ∃ s2, s2.tick = 9
          ∧ mtp_programming_procedure World.one_bad_byte Header.demo [] St.init
              = failed_verification World.one_bad_byte 0x0800 (List.range 6) s2 := by
  have h := verification_gate World.one_bad_byte Header.demo [] St.init (fun _ => rfl)
  refine ⟨((h.1 0x0800 (List.range 6) ⟨9, []⟩).2.1 (by decide)).trans (by decide), ?_⟩
  obtain ⟨s2, _, ht, hfail⟩ := h.2.1
  have ht9 : s2.tick = 9 := ht
  refine ⟨s2, ht9, (hfail ?_).1⟩
  rw [ht9]
  decide

/-! ## The size gate of `main` -/

theorem grows_pure {α : Type} (a : α) : Grows (pure a : Prog α) :=
  fun s => List.prefix_refl s.log

theorem grows_exit {α : Type} (c : Int) : Grows (exit c : Prog α) :=
  fun s => List.prefix_refl s.log

theorem grows_print (m : Msg) : Grows (print m) :=
  fun s => List.prefix_append s.log _

theorem grows_msleep (n : Nat) : Grows (msleep n) :=
  fun s => List.prefix_append s.log _

theorem grows_syscall (w : World) (e : Event) : Grows (syscall w e) :=
  fun s => List.prefix_append s.log _

theorem grows_bind {α β : Type} {m : Prog α} {f : α → Prog β} (hm : Grows m)
    (hf : ∀ a, Grows (f a)) : Grows (m >>= f) := by
  intro s
  have h1 := hm s
  rw [bind_run]
  cases hms : m s with
  | ret a s1 =>
    rw [hms] at h1
    exact h1.trans (hf a s1)
  | exit c s1 =>
    rw [hms] at h1
    exact h1

theorem grows_ite {α : Type} (c : Prop) [Decidable c] {a b : Prog α} (ha : Grows a)
    (hb : Grows b) : Grows (if c then a else b) := by
  split
  · exact ha
  · exact hb

theorem grows_i2c_write_data (w : World) (addr : Nat) (data : List Nat) :
    Grows (i2c_write_data w addr data) := by
  unfold i2c_write_data
  repeat (first
    | exact grows_pure _ | exact grows_exit _ | exact grows_print _ | exact grows_msleep _
    | exact grows_syscall _ _ | apply grows_bind | apply grows_ite | intro _)

theorem grows_i2c_write_byte_data (w : World) (addr data : Nat) :
    Grows (i2c_write_byte_data w addr data) := by
  unfold i2c_write_byte_data
  repeat (first
    | exact grows_pure _ | exact grows_exit _ | exact grows_print _ | exact grows_msleep _
    | exact grows_syscall _ _ | apply grows_bind | apply grows_ite | intro _)

theorem grows_i2c_write_byte_data_safe (w : World) (addr data : Nat) :
    Grows (i2c_write_byte_data_safe w addr data) := by
  unfold i2c_write_byte_data_safe
  repeat (first
    | exact grows_pure _ | exact grows_exit _ | exact grows_print _ | exact grows_msleep _
    | exact grows_syscall _ _ | apply grows_bind | apply grows_ite | intro _)

theorem grows_i2c_read_byte_data (w : World) (addr : Nat) :
    Grows (i2c_read_byte_data w addr) := by
  intro s
  unfold i2c_read_byte_data
  refine (?_ : Grows _) s
  repeat (first
    | exact grows_pure _ | exact grows_exit _ | exact grows_print _ | exact grows_msleep _
    | exact grows_syscall _ _ | apply grows_bind | apply grows_ite | intro _)

theorem grows_i2c_read_data (w : World) (addr : Nat) (data : List Nat) (size : Nat) :
    Grows (i2c_read_data w addr data size) := by
  intro s
  unfold i2c_read_data
  refine (?_ : Grows _) s
  repeat (first
    | exact grows_pure _ | exact grows_exit _ | exact grows_print _ | exact grows_msleep _
    | exact grows_syscall _ _ | apply grows_bind | apply grows_ite | intro _)

theorem grows_load_section (w : World) (addr : Nat) (sec : downloader_section) :
    Grows (load_section w addr sec) := by
  unfold load_section
  repeat (first
    | exact grows_pure _ | exact grows_exit _ | exact grows_print _ | exact grows_msleep _
    | exact grows_syscall _ _ | apply grows_bind | apply grows_ite | intro _)

theorem grows_forIn_unit (l : List Nat) (f : Nat → PUnit → Prog (ForInStep PUnit))
    (hf : ∀ i r, Grows (f i r)) : Grows (forIn l PUnit.unit f) := by
  induction l with
  | nil => exact grows_pure _
  | cons i l ih =>
    rw [List.forIn_cons]
    refine grows_bind (hf i _) fun r => ?_
    cases r with
    | done b => exact grows_pure _
    | yield b => exact ih

theorem grows_verify_bootloader (w : World) (addr : Nat) (img : List Nat) :
    Grows (verify_bootloader w addr img) := by
  unfold verify_bootloader
  repeat (first
    | exact grows_pure _ | exact grows_exit _ | exact grows_print _
    | exact grows_i2c_read_data _ _ _ _ | apply grows_bind | apply grows_ite
    | apply grows_forIn_unit | intro _)

theorem grows_load_bootloader_loop (w : World) (img : List Nat) :
    ∀ (fuel size sendsz i addr : Nat) (rdata : List Nat),
      Grows (load_bootloader_loop w img fuel size sendsz i addr rdata) := by
  intro fuel
  induction fuel with
  | zero =>
    intro size sendsz i addr rdata
    unfold load_bootloader_loop
    exact grows_pure _
  | succ fuel ih =>
    intro size sendsz i addr rdata
    unfold load_bootloader_loop
    repeat (first
      | exact grows_pure _ | exact grows_print _ | exact ih _ _ _ _ _
      | exact grows_i2c_write_data _ _ _ | exact grows_i2c_read_data _ _ _ _
      | apply grows_bind | apply grows_ite | intro _)

theorem grows_load_bootloader (w : World) (addr : Nat) (img : List Nat) :
    Grows (load_bootloader w addr img) := by
  unfold load_bootloader
  repeat (first
    | exact grows_pure _ | exact grows_print _ | exact grows_load_bootloader_loop _ _ _ _ _ _ _ _
    | apply grows_bind | intro _)

theorem prog_poll_eq (w : World) (sa i status : Nat) :
    prog_poll w sa i status
      = if status &&& START_PROG_CYCLE ≠ 0 then
          i2c_read_byte_data w sa >>= fun st => msleep 20 >>= fun _ =>
            match i with
            | 0 => print (.prog_timeout st) >>= fun _ => exit 1
            | i + 1 => prog_poll w sa i st
        else pure status := by
  funext s
  rw [prog_poll]
  split
  · simp only [bind_run]
    cases i2c_read_byte_data w sa s with
    | ret a s1 => cases i <;> rfl
    | exit c s1 => rfl
  · rfl

theorem grows_prog_poll (w : World) (sa : Nat) :
    ∀ i status, Grows (prog_poll w sa i status) := by
  intro i
  induction i with
  | zero =>
    intro status
    rw [prog_poll_eq]
    repeat (first
    | exact grows_pure _ | exact grows_exit _ | exact grows_print _ | exact grows_msleep _
    | exact grows_syscall _ _ | exact grows_i2c_write_data _ _ _
    | exact grows_i2c_write_byte_data _ _ _ | exact grows_i2c_write_byte_data_safe _ _ _
    | exact grows_i2c_read_byte_data _ _ | exact grows_i2c_read_data _ _ _ _
    | exact grows_load_section _ _ _ | apply grows_bind | apply grows_ite | intro _)
  | succ i ih =>
    intro status
    rw [prog_poll_eq]
    repeat (first
      | exact grows_pure _ | exact ih _ | exact grows_msleep _
      | exact grows_i2c_read_byte_data _ _ | apply grows_bind | apply grows_ite | intro _)

theorem grows_do_prog_cycle (w : World) (sa start : Nat) : Grows (do_prog_cycle w sa start) := by
  unfold do_prog_cycle
  repeat (first
    | exact grows_pure _ | exact grows_exit _ | exact grows_print _
    | exact grows_prog_poll _ _ _ _ | exact grows_i2c_write_byte_data _ _ _
    | exact grows_i2c_read_byte_data _ _ | apply grows_bind | apply grows_ite | intro _)

theorem load_fw_loop_eq (w : World) (i fw_addr buf_sum : Nat) (sec : downloader_section)
    (fw : List Nat) :
    load_fw_loop w i fw_addr buf_sum sec fw
      = if min MTP_BOOTLOADER_SECTION_SIZE fw.length > 0
            ∧ i * MTP_BOOTLOADER_SECTION_SIZE < 1 <<< 14 then
          load_section w MTP_BOOTLOADER_FW_SECTION_START_ADDR
              { status := 0
                start_addr := fw_addr
                code_length := min MTP_BOOTLOADER_SECTION_SIZE fw.length
                data_chk_sum := (fw_addr + min MTP_BOOTLOADER_SECTION_SIZE fw.length
                  + ((fw.take (min MTP_BOOTLOADER_SECTION_SIZE fw.length)
                        ++ sec.data_buf.drop (min MTP_BOOTLOADER_SECTION_SIZE fw.length)).take
                      (min MTP_BOOTLOADER_SECTION_SIZE fw.length)).foldl
                    (fun sum b => (sum + b) % 65536) buf_sum) % 65536
                data_buf := fw.take (min MTP_BOOTLOADER_SECTION_SIZE fw.length)
                  ++ sec.data_buf.drop (min MTP_BOOTLOADER_SECTION_SIZE fw.length) }
            >>= fun _ => do_prog_cycle w MTP_BOOTLOADER_FW_SECTION_START_ADDR fw_addr
            >>= fun _ => load_fw_loop w (i + 1)
              ((fw_addr + MTP_BOOTLOADER_SECTION_SIZE) % 65536) 0
              { status := 0
                start_addr := fw_addr
                code_length := min MTP_BOOTLOADER_SECTION_SIZE fw.length
                data_chk_sum := (fw_addr + min MTP_BOOTLOADER_SECTION_SIZE fw.length
                  + ((fw.take (min MTP_BOOTLOADER_SECTION_SIZE fw.length)
                        ++ sec.data_buf.drop (min MTP_BOOTLOADER_SECTION_SIZE fw.length)).take
                      (min MTP_BOOTLOADER_SECTION_SIZE fw.length)).foldl
                    (fun sum b => (sum + b) % 65536) buf_sum) % 65536
                data_buf := fw.take (min MTP_BOOTLOADER_SECTION_SIZE fw.length)
                  ++ sec.data_buf.drop (min MTP_BOOTLOADER_SECTION_SIZE fw.length) }
              (fw.drop (min MTP_BOOTLOADER_SECTION_SIZE fw.length))
        else pure () := by
  funext s
  rw [load_fw_loop]
  split
  · simp only [bind_run]
    cases load_section w MTP_BOOTLOADER_FW_SECTION_START_ADDR _ s with
    | ret a s1 =>
      simp only []
      cases do_prog_cycle w MTP_BOOTLOADER_FW_SECTION_START_ADDR fw_addr s1 <;> rfl
    | exit c s1 => rfl
  · rfl

theorem grows_load_fw_loop (w : World) :
    ∀ (n : Nat) (fw : List Nat), fw.length ≤ n → ∀ (i fw_addr buf_sum : Nat)
      (sec : downloader_section), Grows (load_fw_loop w i fw_addr buf_sum sec fw) := by
  intro n
  induction n with
  | zero =>
    intro fw hfw i fw_addr buf_sum sec
    rw [load_fw_loop_eq, if_neg (by omega)]
    exact grows_pure _
  | succ n ih =>
    intro fw hfw i fw_addr buf_sum sec
    rw [load_fw_loop_eq]
    by_cases hc : min MTP_BOOTLOADER_SECTION_SIZE fw.length > 0
        ∧ i * MTP_BOOTLOADER_SECTION_SIZE < 1 <<< 14
    · rw [if_pos hc]
      refine grows_bind (grows_load_section _ _ _) fun _ =>
        grows_bind (grows_do_prog_cycle _ _ _) fun _ => ih _ ?_ _ _ _ _
      rw [List.length_drop]
      omega
    · rw [if_neg hc]
      exact grows_pure _

theorem grows_load_fw (w : World) (fw : List Nat) : Grows (load_fw w fw) := by
  unfold load_fw
  exact grows_load_fw_loop w fw.length fw (Nat.le_refl _) _ _ _ _

theorem prefix_bind {α β : Type} {m : Prog α} {f : α → Prog β} (pre : List Event) (s : St)
    (hm : pre <+: (m s).state.log) (hf : ∀ a, Grows (f a)) :
    pre <+: ((m >>= f) s).state.log := by
  rw [bind_run]
  cases hms : m s with
  | ret a s1 =>
    rw [hms] at hm
    exact hm.trans (hf a s1)
  | exit c s1 =>
    rw [hms] at hm
    exact hm

/-- The programming procedure begins with a bus transaction, the write that unlocks the
system registers, in every world. -/
theorem mtp_programming_procedure_first_write (w : World) (h : Header) (fw : List Nat)
    (s : St) :
    s.log ++ [Event.write 0x3000 [UNLOCK_SYS_REGISTERS]]
      <+: (mtp_programming_procedure w h fw s).state.log := by
  unfold mtp_programming_procedure prepare_system
  refine prefix_bind _ s (prefix_bind _ s ?_ ?_) ?_
  · cases hw : w.ok s.tick
    · simp [i2c_write_byte_data, syscall, hw, print, exit, Out.state]
      rfl
    · simp [i2c_write_byte_data, syscall, hw, Out.state]
      rfl
  · repeat (first
      | exact grows_msleep _ | exact grows_i2c_write_byte_data _ _ _ | apply grows_bind
      | intro _)
  · repeat (first
      | exact grows_pure _ | exact grows_print _ | exact grows_msleep _
      | exact grows_i2c_write_byte_data _ _ _ | exact grows_i2c_write_byte_data_safe _ _ _
      | exact grows_load_bootloader _ _ _ | exact grows_verify_bootloader _ _ _
      | exact grows_load_fw _ _ | apply grows_bind | apply grows_ite | intro _)

theorem bind_pure_run {α : Type} (m : Prog α) (s : St) : (m >>= fun a => pure a) s = m s := by
  rw [bind_run]
  cases m s <;> rfl

/-- C3: for the flash action, with the bus device opened and the firmware file found, `main`
runs the programming procedure when the file size is at most 16384 and calls `exit(ENOMEM)`
in the unchanged state, with no bus transaction issued, when it is larger.  The programming
procedure begins with the write to 0x3000, so `main` issues that transaction exactly when the
size is at most 16384. -/
theorem flash_size_gate (w : World) (h : Header) (inv : Invocation) (fw : List Nat) (s : St)
    (hargc : 2 ≤ inv.argc) (hfd : 0 ≤ inv.i2c_fd) (hslave : 0 ≤ inv.set_slave)
    (hact : inv.action = some "flash") (hpath : inv.filepath ≠ none)
    (hfw : inv.fw = some fw) :
    (fw.length ≤ 16384 → main w h inv s = mtp_programming_procedure w h fw s) ∧
    (16384 < fw.length → main w h inv s = .exit ENOMEM s) ∧
    s.log ++ [Event.write 0x3000 [UNLOCK_SYS_REGISTERS]]
      <+: (mtp_programming_procedure w h fw s).state.log ∧
    (s.log ++ [Event.write 0x3000 [UNLOCK_SYS_REGISTERS]] <+: (main w h inv s).state.log
      ↔ fw.length ≤ 16384) := by
  obtain ⟨p, hp⟩ : ∃ p, inv.filepath = some p := by
    cases hq : inv.filepath with
    | none => exact absurd hq hpath
    | some p => exact ⟨p, rfl⟩
  have hle : fw.length ≤ 16384 → main w h inv s = mtp_programming_procedure w h fw s := by
    intro hs
    have h1 : ¬ inv.argc < 2 := by omega
    have h2 : ¬ inv.i2c_fd < 0 := by omega
    have h3 : ¬ inv.set_slave < 0 := by omega
    have h4 : ¬ fw.length > MTP_MEM_SIZE_LIMIT := by
      show ¬ fw.length > 16384
      omega
    simp only [main, h1, h2, h3, h4, hact, hp, hfw, if_false, bind_run, pure_run]
    simp
    cases mtp_programming_procedure w h fw s <;> rfl
  have hgt : 16384 < fw.length → main w h inv s = .exit ENOMEM s := by
    intro hs
    have h1 : ¬ inv.argc < 2 := by omega
    have h2 : ¬ inv.i2c_fd < 0 := by omega
    have h3 : ¬ inv.set_slave < 0 := by omega
    have h4 : fw.length > MTP_MEM_SIZE_LIMIT := hs
    simp only [main, h1, h2, h3, h4, hact, hp, hfw, if_false, if_true, bind_run, pure_run]
    simp [exit]
  refine ⟨hle, hgt, mtp_programming_procedure_first_write w h fw s, ?_, ?_⟩
  · intro hpre
    by_contra hn
    rw [hgt (by omega)] at hpre
    have := hpre.length_le
    simp [Out.state] at this
  · intro hs
    rw [hle hs]
    exact mtp_programming_procedure_first_write w h fw s

/-- Witness of C3: a file of 16385 bytes ends the run with `exit(ENOMEM)` before anything
else happens, a file of exactly 16384 bytes is programmed. -/
theorem flash_size_gate_witness :
    main (calm fun _ _ => 2) Header.demo (Invocation.flash 16385) St.init
        = .exit ENOMEM St.init
      ∧ main (calm fun _ _ => 2) Header.demo (Invocation.flash 16384) St.init
        = mtp_programming_procedure (calm fun _ _ => 2) Header.demo (List.replicate 16384 0)
            St.init :=
  ⟨(flash_size_gate (calm fun _ _ => 2) Header.demo (Invocation.flash 16385)
      (List.replicate 16385 0) St.init (by decide) (by decide) (by decide) rfl
      (fun hq => Option.noConfusion hq) rfl).2.1 (by rw [List.length_replicate]; omega),
   (flash_size_gate (calm fun _ _ => 2) Header.demo (Invocation.flash 16384)
      (List.replicate 16384 0) St.init (by decide) (by decide) (by decide) rfl
      (fun hq => Option.noConfusion hq) rfl).1 (by rw [List.length_replicate])⟩

/-! ## Section transfer -/

theorem foldl_add_mod (l : List Nat) :
    ∀ a, a < 65536 → l.foldl (fun sum b => (sum + b) % 65536) a = (a + l.sum) % 65536 := by
  induction l with
  | nil =>
    intro a ha
    simp [Nat.mod_eq_of_lt ha]
  | cons b l ih =>
    intro a _
    rw [List.foldl_cons, ih _ (Nat.mod_lt _ (by decide)), List.sum_cons]
    omega

theorem take_min_length (l : List Nat) (n : Nat) : l.take (min n l.length) = l.take n := by
  by_cases h : n ≤ l.length
  · rw [Nat.min_eq_left h]
  · rw [Nat.min_eq_right (by omega), List.take_of_length_le (Nat.le_refl _),
      List.take_of_length_le (by omega)]

theorem do_prog_cycle_ret (w : World) (sa start : Nat) (s s2 : St)
    (hok : ∀ n, w.ok n = true) (hrun : do_prog_cycle w sa start s = .ret () s2) :
    bus_writes s2.log = bus_writes s.log ++ [(sa % 65536, [START_PROG_CYCLE])] := by
  by_cases hb : ∀ j, j < 250 → w.status (s.tick + 1 + j) &&& 1 ≠ 0
  · rw [do_prog_cycle_timeout w sa start s hok hb] at hrun
    exact Out.noConfusion hrun
  · obtain ⟨k, hk, hbusy, hfree⟩ :=
      first_free (fun j => w.status (s.tick + 1 + j) &&& 1 ≠ 0) 250 hb
    rw [do_prog_cycle_found w sa start s k hok hk hbusy (by simpa using hfree)] at hrun
    split_ifs at hrun
    obtain rfl := (Out.ret.inj hrun).2
    simp

theorem stale_buf_length (w : World) (fw : List Nat) (k : Nat) :
    (stale_buf w fw k).length ≤ 128 := by
  unfold stale_buf
  split
  · simp [World.heap_bytes]
  · simp only [fw_chunk, List.length_take]
    omega

theorem load_fw_loop_writes (w : World) (fw : List Nat) (hok : ∀ n, w.ok n = true)
    (hsize : fw.length ≤ 16384) :
    ∀ (j i : Nat) (sec : downloader_section) (s s1 : St),
      (fw.length - 128 * i + 127) / 128 = j →
      (0 < j → sec.data_buf = stale_buf w fw i) →
      load_fw_loop w i (128 * i) (if i = 0 then w.buf_sum % 65536 else 0) sec
          (fw.drop (128 * i)) s = .ret () s1 →
      bus_writes s1.log = bus_writes s.log
        ++ (List.range' i j).flatMap fun k =>
            [(0x0400, (sent_section w fw k).bytes), (0x0400, [START_PROG_CYCLE])] := by
  intro j
  induction j with
  | zero =>
    intro i sec s s1 hj _ hrun
    have hlen : (fw.drop (128 * i)).length = 0 := by rw [List.length_drop]; omega
    rw [load_fw_loop_eq, if_neg (by rw [hlen]; simp)] at hrun
    obtain rfl := (Out.ret.inj hrun).2
    simp
  | succ j ih =>
    intro i sec s s1 hj hsec hrun
    have hlen : (fw.drop (128 * i)).length = fw.length - 128 * i := List.length_drop _ _
    have hpos : 0 < fw.length - 128 * i := by omega
    have hchunk : (fw.drop (128 * i)).take (min 128 (fw.drop (128 * i)).length)
        = fw_chunk fw i := take_min_length _ _
    have hclen : min 128 (fw.drop (128 * i)).length = (fw_chunk fw i).length := by
      simp only [fw_chunk, List.length_take]
    have hbs : (if i = 0 then w.buf_sum % 65536 else 0) < 65536 := by
      split
      · exact Nat.mod_lt _ (by decide)
      · decide
    have hguard : min MTP_BOOTLOADER_SECTION_SIZE (fw.drop (128 * i)).length > 0
        ∧ i * MTP_BOOTLOADER_SECTION_SIZE < 1 <<< 14 := by
      rw [hlen]
      simp only [MTP_BOOTLOADER_SECTION_SIZE, Nat.reduceShiftLeft]
      omega
    rw [load_fw_loop_eq, if_pos hguard] at hrun
    simp only [MTP_BOOTLOADER_SECTION_SIZE, MTP_BOOTLOADER_FW_SECTION_START_ADDR] at hrun
    rw [hchunk, hclen, List.take_left, foldl_add_mod _ _ hbs, hsec (Nat.succ_pos _)] at hrun
    have hd : downloader_section.mk 0 (128 * i) (fw_chunk fw i).length
        ((128 * i + (fw_chunk fw i).length
          + ((if i = 0 then w.buf_sum % 65536 else 0) + (fw_chunk fw i).sum) % 65536) % 65536)
        (fw_chunk fw i ++ (stale_buf w fw i).drop (fw_chunk fw i).length)
        = sent_section w fw i := by
      unfold sent_section
      congr 1
      split <;> omega
    rw [hd, bind_run, load_section_ok w _ _ s (hok _)] at hrun
    simp only [bind_run] at hrun
    cases hpc : do_prog_cycle w 1024 (128 * i)
        ⟨s.tick + 1, s.log ++ [Event.write (1024 % 65536) (sent_section w fw i).bytes]⟩ with
    | exit c s2 =>
      rw [hpc] at hrun
      exact Out.noConfusion hrun
    | ret a s2 =>
      rw [hpc] at hrun
      simp only [] at hrun
      have hw2 := do_prog_cycle_ret w _ _ _ s2 hok hpc
      have haddr : (128 * i + 128) % 65536 = 128 * (i + 1) := by omega
      have hdrop : (fw.drop (128 * i)).drop (fw_chunk fw i).length
          = fw.drop (128 * (i + 1)) := by
        rw [List.drop_drop]
        by_cases hfull : 128 ≤ fw.length - 128 * i
        · have : (fw_chunk fw i).length = 128 := by
            simp only [fw_chunk, List.length_take, hlen]
            omega
          rw [this]
          congr 1
        · have : (fw_chunk fw i).length = fw.length - 128 * i := by
            simp only [fw_chunk, List.length_take, hlen]
            omega
          rw [this, List.drop_of_length_le (by omega), List.drop_of_length_le (by omega)]
      rw [haddr, hdrop] at hrun
      have hnext := ih (i + 1) (sent_section w fw i) s2 s1 (by omega)
        (fun hj0 => by
          have hfull : (fw_chunk fw i).length = 128 := by
            simp only [fw_chunk, List.length_take, hlen]
            omega
          have hst := stale_buf_length w fw i
          simp only [sent_section, hfull, stale_buf, Nat.add_sub_cancel]
          rw [List.drop_of_length_le (by simpa [stale_buf] using hst)]
          simp)
        (by simpa using hrun)
      rw [hnext, hw2, List.range'_succ]
      simp

theorem load_fw_loop_returns (w : World) (hok : ∀ n, w.ok n = true)
    (hready : ∀ t, w.status t = 2) :
    ∀ (n : Nat) (fw : List Nat), fw.length ≤ n → ∀ (i fw_addr buf_sum : Nat)
      (sec : downloader_section) (s : St),
      ∃ s1, load_fw_loop w i fw_addr buf_sum sec fw s = .ret () s1 := by
  intro n
  induction n with
  | zero =>
    intro fw hfw i fw_addr buf_sum sec s
    rw [load_fw_loop_eq, if_neg (by omega)]
    exact ⟨s, rfl⟩
  | succ n ih =>
    intro fw hfw i fw_addr buf_sum sec s
    rw [load_fw_loop_eq]
    by_cases hc : min MTP_BOOTLOADER_SECTION_SIZE fw.length > 0
        ∧ i * MTP_BOOTLOADER_SECTION_SIZE < 1 <<< 14
    · rw [if_pos hc, bind_run, load_section_ok w _ _ s (hok _)]
      simp only [bind_run]
      rw [do_prog_cycle_found w _ _ _ 0 hok (by decide) (fun j hj => absurd hj (Nat.not_lt_zero j))
        (by rw [hready]; decide), if_pos (hready _)]
      simp only []
      exact ih _ (by rw [List.length_drop]; omega) _ _ _ _ _
    · rw [if_neg hc]
      exact ⟨s, rfl⟩

theorem load_fw_writes (w : World) (fw : List Nat) (s s1 : St) (hok : ∀ n, w.ok n = true)
    (hsize : fw.length ≤ 16384) (hrun : load_fw w fw s = .ret () s1) :
    bus_writes s1.log = bus_writes s.log
      ++ (List.range ((fw.length + 127) / 128)).flatMap fun k =>
          [(0x0400, (sent_section w fw k).bytes), (0x0400, [START_PROG_CYCLE])] := by
  rw [List.range_eq_range']
  refine load_fw_loop_writes w fw hok hsize _ 0
    { status := 0, start_addr := 0, code_length := 0, data_chk_sum := 0
      data_buf := w.heap_bytes } s s1 (by simp) (fun _ => by simp [stale_buf]) ?_
  simpa [load_fw] using hrun

/-- C2: when all bus calls complete and the run of `load_fw` over a firmware image of `N`
bytes, `N` at most 16384, returns (every Program cycle has succeeded), the writes of the run
are, for `k = 0, 1, ..., ceil(N / 128) - 1` in order, the descriptor of chunk `k` to 0x0400
followed by the one start command of its Program cycle.  Descriptor `k` has status 0 and
start address `128 k`; its length is 128 for every chunk but the last and, for the last,
`N mod 128`, or 128 when that is 0; its payload is bytes `[128 k, 128 k + length)` of the
image. -/
theorem load_fw_sections (w : World) (fw : List Nat) (s s1 : St) (hok : ∀ n, w.ok n = true)
    (hsize : fw.length ≤ 16384) (hrun : load_fw w fw s = .ret () s1) :
    bus_writes s1.log = bus_writes s.log
      ++ (List.range ((fw.length + 127) / 128)).flatMap (fun k =>
          [(0x0400, (sent_section w fw k).bytes), (0x0400, [START_PROG_CYCLE])]) ∧
    ∀ k, k < (fw.length + 127) / 128 →
      (sent_section w fw k).status = 0 ∧
      (sent_section w fw k).start_addr = 128 * k ∧
      (k + 1 < (fw.length + 127) / 128 → (sent_section w fw k).code_length = 128) ∧
      (k + 1 = (fw.length + 127) / 128 → (sent_section w fw k).code_length
        = if fw.length % 128 = 0 then 128 else fw.length % 128) ∧
      (sent_section w fw k).data_buf.take (sent_section w fw k).code_length
        = (fw.drop (128 * k)).take 128 := by
  refine ⟨load_fw_writes w fw s s1 hok hsize hrun, fun k hk => ⟨rfl, rfl, fun hlt => ?_,
    fun heq => ?_, ?_⟩⟩
  · simp only [sent_section, fw_chunk, List.length_take, List.length_drop]
    omega
  · simp only [sent_section, fw_chunk, List.length_take, List.length_drop]
    split <;> omega
  · simp only [sent_section]
    rw [List.take_left]
    rfl

/-- Witness of C2: a 256-byte image, the chip answering every poll with 0x02, goes out as two
sections, at addresses 0 and 128 with 128 bytes each, each followed by one start command. -/
theorem load_fw_sections_witness :
    ∃ s1, load_fw (calm fun _ _ => 2) (List.replicate 256 7) St.init = .ret () s1
      ∧ bus_writes s1.log
        = [(0x0400, (sent_section (calm fun _ _ => 2) (List.replicate 256 7) 0).bytes),
           (0x0400, [1]),
           (0x0400, (sent_section (calm fun _ _ => 2) (List.replicate 256 7) 1).bytes),
           (0x0400, [1])]
      ∧ (sent_section (calm fun _ _ => 2) (List.replicate 256 7) 0).start_addr = 0
      ∧ (sent_section (calm fun _ _ => 2) (List.replicate 256 7) 1).start_addr = 128
      ∧ (sent_section (calm fun _ _ => 2) (List.replicate 256 7) 0).code_length = 128
      ∧ (sent_section (calm fun _ _ => 2) (List.replicate 256 7) 1).code_length = 128 := by
  obtain ⟨s1, h1⟩ := load_fw_loop_returns (calm fun _ _ => 2) (fun _ => rfl) (fun _ => rfl)
    256 (List.replicate 256 7) (by rw [List.length_replicate]) 0 0 0
    { status := 0, start_addr := 0, code_length := 0, data_chk_sum := 0
      data_buf := (calm fun _ _ => 2).heap_bytes } St.init
  have hlen : (List.replicate 256 7).length = 256 := List.length_replicate _ _
  have h := load_fw_sections (calm fun _ _ => 2) (List.replicate 256 7) St.init s1
    (fun _ => rfl) (by rw [hlen]; decide) h1
  refine ⟨s1, h1, ?_, rfl, rfl, ?_, ?_⟩
  · rw [h.1, hlen]
    rfl
  · exact (h.2 0 (by rw [hlen]; decide)).2.2.1 (by rw [hlen]; decide)
  · exact ((h.2 1 (by rw [hlen]; decide)).2.2.2.1 (by rw [hlen])).trans (by rw [hlen]; rfl)

/-- The checksum field of the descriptors `load_fw` sends: for every chunk after the first it
is the sum of the payload bytes, the start address and the length, modulo 65536; for the first
chunk the value `buf_sum` held on entry is added to that sum. -/
theorem sent_section_checksum (w : World) (fw : List Nat) (k : Nat) :
    (k ≠ 0 → (sent_section w fw k).data_chk_sum
      = (((sent_section w fw k).data_buf.take (sent_section w fw k).code_length).sum
          + (sent_section w fw k).start_addr + (sent_section w fw k).code_length) % 65536) ∧
    (k = 0 → (sent_section w fw k).data_chk_sum
      = (w.buf_sum + ((sent_section w fw k).data_buf.take (sent_section w fw k).code_length).sum
          + (sent_section w fw k).start_addr + (sent_section w fw k).code_length) % 65536) := by
  have htake : (sent_section w fw k).data_buf.take (sent_section w fw k).code_length
      = fw_chunk fw k := by
    simp only [sent_section]
    rw [List.take_left]
  rw [htake]
  constructor
  · intro hk
    simp [sent_section, hk]
  · intro hk
    simp [sent_section, hk]

/-- C1, the code departs from the claim on the first section: `buf_sum` is declared without
initialiser and is set to zero only at the end of each loop iteration.  With the one-byte
firmware 0x10 and `buf_sum` holding 1 on entry, `load_fw` returns after sending one
descriptor (status 0, start address 0, length 1) whose checksum field is 18, while the sum of
the payload byte, the start address and the length is 17. -/
theorem first_section_checksum_takes_stale_sum :
    ∃ s1, load_fw World.stale_sum [0x10] St.init = .ret () s1
      ∧ bus_writes s1.log
        = [(0x0400, le16 0 ++ le16 0 ++ le16 1 ++ le16 18 ++ (0x10 :: List.replicate 127 0)),
           (0x0400, [START_PROG_CYCLE])]
      ∧ ([0x10].sum + 0 + 1) % 65536 = 17 := by
  obtain ⟨s1, h1⟩ := load_fw_loop_returns World.stale_sum (fun _ => rfl) (fun _ => rfl)
    1 [0x10] (Nat.le_refl _) 0 0 (World.stale_sum.buf_sum % 65536)
    { status := 0, start_addr := 0, code_length := 0, data_chk_sum := 0
      data_buf := World.stale_sum.heap_bytes } St.init
  refine ⟨s1, h1, ?_, by decide⟩
  rw [load_fw_writes World.stale_sum [0x10] St.init s1 (fun _ => rfl) (by decide) h1]
  decide

end Idt9320
